import Mathlib

/-!
Shallow embedding of the multi-signal classification and background-job code of
the content-manager backend (`backend/app/utils/classification.py`,
`backend/app/utils/tag_mappings.py` and `backend/app/routers/ai_process.py`).

Python floats are modelled by `ℚ`; Python dicts by insertion-ordered
association lists with unique keys; `None` by `Option`.  Python's builtin
`round` (round-half-to-even) is modelled exactly by `pyRoundInt`/`pyRound`.
-/

/-- Python's builtin `round` to an integer: round half to even. -/
def pyRoundInt (x : ℚ) : ℤ :=
  let f := ⌊x⌋
  let frac := x - f
  if frac < 1/2 then f
  else if 1/2 < frac then f + 1
  else if f % 2 = 0 then f else f + 1

/-- Python's `round(x, nd)` for non-negative `nd`. -/
def pyRound (x : ℚ) (nd : ℕ) : ℚ :=
  (pyRoundInt (x * 10 ^ nd) : ℚ) / 10 ^ nd

/-- Lookup in a Python dict modelled as an association list (keys unique). -/
def dictGet {α β : Type} [DecidableEq α] : List (α × β) → α → Option β
  | [], _ => none
  | (k, v) :: t, k' => if k = k' then some v else dictGet t k'

/-- Python's `d.get(k, default)`. -/
def dictGetD {α β : Type} [DecidableEq α] (l : List (α × β)) (k : α) (d : β) : β :=
  (dictGet l k).getD d

/-- `defaultdict` update `d[k] += v` (missing keys start at 0; a fresh key is
appended, preserving Python dict insertion order). -/
def dictAdd {α β : Type} [DecidableEq α] [Add β] : List (α × β) → α → β → List (α × β)
  | [], k, v => [(k, v)]
  | (k', v') :: t, k, v => if k' = k then (k', v' + v) :: t else (k', v') :: dictAdd t k v

/-- Keys of an association list, in insertion order. -/
def dictKeys {α β : Type} (l : List (α × β)) : List α := l.map Prod.fst

/-- Python's `max(d, key=d.get)` over a dict: the first key (in insertion
order) attaining the maximal value, together with that value. -/
def pyMaxEntry {α β : Type} [LinearOrder β] : List (α × β) → Option (α × β)
  | [] => none
  | (k, v) :: t =>
    match pyMaxEntry t with
    | none => some (k, v)
    | some (k', v') => if v < v' then some (k', v') else some (k, v)

/-- Python truthiness of a `None`-able dict/list argument: `None` and the
empty collection are falsy (`mappings if mappings else DEFAULT`). -/
def pyDictOr {α : Type} (w : Option (List α)) (d : List α) : List α :=
  match w with
  | some l => if l.isEmpty then d else l
  | none => d

/-- Python truthiness of a `None`-able string: `None` and `""` are falsy. -/
def pyTruthyStr : Option String → Bool
  | none => false
  | some s => s ≠ ""

/-- Python truthiness of a `None`-able integer id: `None` and `0` are falsy
(`if area_id:`). -/
def areaTruthy : Option ℤ → Bool
  | none => false
  | some a => a ≠ 0

/-- `SIGNAL_WEIGHTS` from `classification.py`. -/
def SIGNAL_WEIGHTS : List (String × ℚ) :=
  [("transcript", 0.50), ("tags", 0.30), ("description", 0.15), ("author", 0.05)]

/-- `w.get(signal_name, 0.1)` from `combine_classification_signals`. -/
def weightOf (w : List (String × ℚ)) (name : String) : ℚ :=
  dictGetD w name 0.1

/-- One classification signal value as consumed by
`combine_classification_signals`: either a falsy entry (skipped), the standard
`{area_id, confidence, ...}` shape (extra fields are ignored by the combiner),
or the `calculate_tag_signal` shape `{area_id: score, ...}`. -/
inductive SigVal where
  | null
  | std (area_id : Option ℤ) (confidence : ℚ)
  | scores (m : List (ℤ × ℚ))
  deriving Repr, DecidableEq

/-- Result shape of `combine_classification_signals` (the `signal_breakdown`
field merely echoes the input dict and is omitted). -/
structure CombineResult where
  area_id : Option ℤ
  confidence : ℚ
  needs_review : Bool
  deriving Repr, DecidableEq

/-- One iteration of the accumulation loop of `combine_classification_signals`:
state is `(area_scores, total_weight_used)`. -/
def combineStep (w : List (String × ℚ)) :
    List (ℤ × ℚ) × ℚ → String × SigVal → List (ℤ × ℚ) × ℚ
  | acc, (name, v) =>
    let sw := weightOf w name
    match v with
    | .null => acc
    | .std area conf =>
      -- standard shape (also taken for a 'tags' dict carrying an 'area_id' key)
      match area with
      | some a => if a = 0 then acc else (dictAdd acc.1 a (sw * conf), acc.2 + sw)
      | none => acc
    | .scores m =>
      if name = "tags" then
        -- `calculate_tag_signal` format: every (area, score) entry contributes
        if m.isEmpty then acc
        else (m.foldl (fun sc p => dictAdd sc p.1 (sw * p.2)) acc.1, acc.2 + sw)
      else acc  -- a non-'tags' dict without 'area_id': `result.get('area_id')` is None, skipped

/-- `combine_classification_signals` from `classification.py`. -/
def combine_classification_signals (signals : List (String × SigVal))
    (weights : Option (List (String × ℚ))) : CombineResult :=
  if signals.isEmpty then { area_id := none, confidence := 0, needs_review := true }
  else
    let w := pyDictOr weights SIGNAL_WEIGHTS
    let acc := signals.foldl (combineStep w) ([], 0)
    match pyMaxEntry acc.1 with
    | none => { area_id := none, confidence := 0, needs_review := true }
    | some (bestArea, bestScore) =>
      let confRaw := if 0 < acc.2 then bestScore / acc.2 else 0
      let conf := min 1 confRaw
      { area_id := some bestArea, confidence := pyRound conf 3,
        needs_review := decide (conf < 0.4) }

/-- ASCII lower-casing of one character (`str.lower` restricted to the ASCII
range the tag table uses). -/
def pyLowerChar (c : Char) : Char :=
  if 65 ≤ c.toNat ∧ c.toNat ≤ 90 then Char.ofNat (c.toNat + 32) else c

/-- The whitespace characters removed by `str.strip()`. -/
def pyIsSpace (c : Char) : Bool :=
  c = ' ' ∨ c = '\t' ∨ c = '\n' ∨ c = '\r'

/-- `str.strip()`: drop whitespace from both ends. -/
def pyStrip (s : List Char) : List Char :=
  ((s.dropWhile pyIsSpace).reverse.dropWhile pyIsSpace).reverse

/-- `tag.lower().strip()`. -/
def normTag (s : String) : String :=
  String.mk (pyStrip (s.data.map pyLowerChar))

/-- One iteration of the vote-counting loop of `classify_by_tags_only`
(state: `(area_votes, matched_tags)`). -/
def countVotesStep (mappings : List (String × ℤ)) (acc : List (ℤ × ℕ) × ℕ)
    (tag : String) : List (ℤ × ℕ) × ℕ :=
  match dictGet mappings (normTag tag) with
  | some areaId => (dictAdd acc.1 areaId 1, acc.2 + 1)
  | none => acc

/-- The vote-counting loop shared by `classify_by_tags_only`. -/
def countVotes (tags : List String) (mappings : List (String × ℤ)) :
    List (ℤ × ℕ) × ℕ :=
  tags.foldl (countVotesStep mappings) ([], 0)

/-- Result shape of `classify_by_tags_only`. -/
structure TagsResult where
  area_id : Option ℤ
  confidence : ℚ
  matched_tags : ℕ
  area_votes : List (ℤ × ℕ)
  deriving Repr, DecidableEq

/-- `adjust_weights_for_available_signals` from `classification.py`
(the Python set of available signals is modelled as a list). -/
def adjust_weights_for_available_signals (available : List String) :
    List (String × ℚ) :=
  if available.isEmpty then []
  else
    let availableWeight := (available.map (fun s => dictGetD SIGNAL_WEIGHTS s 0)).sum
    if availableWeight = 0 then []
    else available.map (fun s => (s, dictGetD SIGNAL_WEIGHTS s 0.1 / availableWeight))

/-- `get_dominant_area_from_history`: entries are the `area_id` fields of the
history dicts (`entry.get('area_id')`, skipped when falsy). -/
def get_dominant_area_from_history (history : List (Option ℤ)) : Option ℤ :=
  if history.isEmpty then none
  else
    let counts := history.foldl
      (fun acc e =>
        match e with
        | some a => if a = 0 then acc else dictAdd acc a 1
        | none => acc)
      ([] : List (ℤ × ℕ))
    if counts.isEmpty then none
    else
      match pyMaxEntry counts with
      | some (a, _) => some a
      | none => none

/-- `TAG_AREA_MAPPINGS` from `tag_mappings.py` (keys are unique in the source).  -/
def TAG_AREA_MAPPINGS : List (String × ℤ) := [
  ("fitness", 1),
  ("gym", 1),
  ("workout", 1),
  ("ejercicio", 1),
  ("entrenamiento", 1),
  ("training", 1),
  ("crossfit", 1),
  ("cardio", 1),
  ("pesas", 1),
  ("musculacion", 1),
  ("hipertrofia", 1),
  ("bodybuilding", 1),
  ("calistenia", 1),
  ("running", 1),
  ("correr", 1),
  ("nutricion", 1),
  ("dieta", 1),
  ("alimentacion", 1),
  ("calorias", 1),
  ("macros", 1),
  ("proteina", 1),
  ("protein", 1),
  ("keto", 1),
  ("ayuno", 1),
  ("intermitente", 1),
  ("ayunointermitente", 1),
  ("lowcarb", 1),
  ("vegano", 1),
  ("vegetariano", 1),
  ("salud", 1),
  ("bienestar", 1),
  ("wellness", 1),
  ("health", 1),
  ("healthy", 1),
  ("saludable", 1),
  ("yoga", 1),
  ("meditacion", 1),
  ("mindfulness", 1),
  ("estres", 1),
  ("ansiedad", 1),
  ("relajacion", 1),
  ("sueno", 1),
  ("dormir", 1),
  ("descanso", 1),
  ("recuperacion", 1),
  ("sleep", 1),
  ("recetas", 1),
  ("cocina", 1),
  ("comida", 1),
  ("recetassaludables", 1),
  ("mealprep", 1),
  ("emprendimiento", 2),
  ("emprender", 2),
  ("startup", 2),
  ("negocio", 2),
  ("negocios", 2),
  ("business", 2),
  ("empresa", 2),
  ("empresario", 2),
  ("emprendedor", 2),
  ("pyme", 2),
  ("entrepreneur", 2),
  ("marketing", 2),
  ("ventas", 2),
  ("sales", 2),
  ("ecommerce", 2),
  ("amazon", 2),
  ("dropshipping", 2),
  ("ads", 2),
  ("publicidad", 2),
  ("branding", 2),
  ("socialmedia", 2),
  ("redessociales", 2),
  ("contenido", 2),
  ("copywriting", 2),
  ("freelance", 2),
  ("autonomo", 2),
  ("trabajo", 2),
  ("carrera", 2),
  ("profesional", 2),
  ("linkedin", 2),
  ("cv", 2),
  ("curriculum", 2),
  ("entrevista", 2),
  ("empleo", 2),
  ("remotework", 2),
  ("trabajoremoto", 2),
  ("ia", 2),
  ("chatgpt", 2),
  ("inteligenciaartificial", 2),
  ("ai", 2),
  ("openai", 2),
  ("machinelearning", 2),
  ("automation", 2),
  ("automatizacion", 2),
  ("programacion", 2),
  ("codigo", 2),
  ("code", 2),
  ("developer", 2),
  ("tech", 2),
  ("software", 2),
  ("python", 2),
  ("javascript", 2),
  ("webdev", 2),
  ("nocode", 2),
  ("notion", 2),
  ("productividad", 2),
  ("productivity", 2),
  ("organizacion", 2),
  ("gestion", 2),
  ("liderazgo", 2),
  ("management", 2),
  ("equipo", 2),
  ("leadership", 2),
  ("inversiones", 3),
  ("inversion", 3),
  ("invertir", 3),
  ("invertirenbolsa", 3),
  ("investing", 3),
  ("invest", 3),
  ("acciones", 3),
  ("bolsa", 3),
  ("trading", 3),
  ("stocks", 3),
  ("mercado", 3),
  ("stockmarket", 3),
  ("daytrading", 3),
  ("trader", 3),
  ("finanzas", 3),
  ("dinero", 3),
  ("money", 3),
  ("financiero", 3),
  ("economia", 3),
  ("personalfinance", 3),
  ("finanzaspersonales", 3),
  ("ahorro", 3),
  ("ahorrar", 3),
  ("presupuesto", 3),
  ("deudas", 3),
  ("budget", 3),
  ("saving", 3),
  ("crypto", 3),
  ("bitcoin", 3),
  ("btc", 3),
  ("ethereum", 3),
  ("eth", 3),
  ("criptomonedas", 3),
  ("blockchain", 3),
  ("web3", 3),
  ("nft", 3),
  ("etf", 3),
  ("etfs", 3),
  ("fondos", 3),
  ("fondosindexados", 3),
  ("indexfunds", 3),
  ("vanguard", 3),
  ("sp500", 3),
  ("nasdaq", 3),
  ("nasdaq100", 3),
  ("dowjones", 3),
  ("dividendos", 3),
  ("dividends", 3),
  ("interescompuesto", 3),
  ("compoundinterest", 3),
  ("rentabilidad", 3),
  ("pasiveincome", 3),
  ("ingresos", 3),
  ("ingresospasivos", 3),
  ("jubilacion", 3),
  ("retiro", 3),
  ("pension", 3),
  ("rothira", 3),
  ("retirement", 3),
  ("401k", 3),
  ("warrenbuffett", 3),
  ("charliemunger", 3),
  ("valueinvesting", 3),
  ("berkshire", 3),
  ("inmobiliario", 3),
  ("realestate", 3),
  ("propiedades", 3),
  ("inmuebles", 3),
  ("alquileres", 3),
  ("relaciones", 4),
  ("pareja", 4),
  ("amor", 4),
  ("love", 4),
  ("dating", 4),
  ("citas", 4),
  ("comunicacion", 4),
  ("conflictos", 4),
  ("matrimonio", 4),
  ("seduccion", 4),
  ("atraccion", 4),
  ("relationship", 4),
  ("couple", 4),
  ("entretenimiento", 5),
  ("diversion", 5),
  ("ocio", 5),
  ("humor", 5),
  ("comedia", 5),
  ("funny", 5),
  ("memes", 5),
  ("musica", 5),
  ("music", 5),
  ("arte", 5),
  ("art", 5),
  ("viajes", 5),
  ("travel", 5),
  ("turismo", 5),
  ("viajar", 5),
  ("aventura", 5),
  ("gaming", 5),
  ("videojuegos", 5),
  ("juegos", 5),
  ("gamer", 5),
  ("esports", 5),
  ("peliculas", 5),
  ("series", 5),
  ("netflix", 5),
  ("cine", 5),
  ("movies", 5),
  ("deportes", 5),
  ("futbol", 5),
  ("football", 5),
  ("basketball", 5),
  ("soccer", 5),
  ("hobbies", 5),
  ("manualidades", 5),
  ("diy", 5),
  ("crafts", 5),
  ("casa", 6),
  ("hogar", 6),
  ("home", 6),
  ("decoracion", 6),
  ("decor", 6),
  ("interiordesign", 6),
  ("minimalismo", 6),
  ("minimalist", 6),
  ("limpieza", 6),
  ("cleaning", 6),
  ("orden", 6),
  ("konmari", 6),
  ("mudanza", 6),
  ("moving", 6),
  ("renta", 6),
  ("alquiler", 6),
  ("desarrollopersonal", 7),
  ("crecimientopersonal", 7),
  ("superacion", 7),
  ("selfimprovement", 7),
  ("personalgrowth", 7),
  ("selfdevelopment", 7),
  ("habitos", 7),
  ("habits", 7),
  ("disciplina", 7),
  ("discipline", 7),
  ("constancia", 7),
  ("rutina", 7),
  ("routine", 7),
  ("motivacion", 7),
  ("motivation", 7),
  ("inspiracion", 7),
  ("mentalidad", 7),
  ("mindset", 7),
  ("actitud", 7),
  ("libros", 7),
  ("books", 7),
  ("lectura", 7),
  ("reading", 7),
  ("aprendizaje", 7),
  ("learning", 7),
  ("educacion", 7),
  ("education", 7),
  ("conocimiento", 7),
  ("estoicismo", 7),
  ("stoicism", 7),
  ("filosofia", 7),
  ("philosophy", 7),
  ("psicologia", 7),
  ("psychology", 7),
  ("metas", 7),
  ("goals", 7),
  ("objetivos", 7),
  ("proposito", 7),
  ("purpose", 7),
  ("autoestima", 7),
  ("confianza", 7),
  ("confidence", 7),
  ("seguridad", 7),
  ("tiktoklearningcampaign", 7),
  ("aprendeentiktok", 7),
  ("tiktoklearning", 7),
  ("familia", 8),
  ("family", 8),
  ("hijos", 8),
  ("kids", 8),
  ("padres", 8),
  ("parents", 8),
  ("maternidad", 8),
  ("motherhood", 8),
  ("paternidad", 8),
  ("fatherhood", 8),
  ("crianza", 8),
  ("parenting", 8),
  ("bebes", 8),
  ("babies", 8),
  ("ninos", 8),
  ("children", 8),
  ("adolescentes", 8),
  ("teens", 8),
  ("amigos", 8),
  ("friends", 8),
  ("amistad", 8),
  ("friendship", 8),
  ("social", 8),
  ("voluntariado", 9),
  ("volunteering", 9),
  ("caridad", 9),
  ("charity", 9),
  ("donacion", 9),
  ("donation", 9),
  ("ayudar", 9),
  ("helping", 9),
  ("impacto", 9),
  ("impact", 9),
  ("legado", 9),
  ("legacy", 9),
  ("comunidad", 9),
  ("community", 9),
  ("nonprofit", 9),
  ("ong", 9),
  ("espiritual", 10),
  ("spiritual", 10),
  ("espiritualidad", 10),
  ("spirituality", 10),
  ("fe", 10),
  ("faith", 10),
  ("religion", 10),
  ("oracion", 10),
  ("prayer", 10),
  ("biblia", 10),
  ("bible", 10),
  ("dios", 10),
  ("god", 10),
  ("iglesia", 10),
  ("church", 10),
  ("cristiano", 10),
  ("christian", 10),
  ("sentido", 10),
  ("trascendencia", 10)]

/-- `classify_by_tags_only` from `classification.py`. -/
def classify_by_tags_only (tags : List String)
    (custom_mappings : Option (List (String × ℤ))) : TagsResult :=
  if tags.isEmpty then { area_id := none, confidence := 0, matched_tags := 0, area_votes := [] }
  else
    let mappings := pyDictOr custom_mappings TAG_AREA_MAPPINGS
    let res := countVotes tags mappings
    if res.1.isEmpty then { area_id := none, confidence := 0, matched_tags := 0, area_votes := [] }
    else
      match pyMaxEntry res.1 with
      | none => { area_id := none, confidence := 0, matched_tags := 0, area_votes := [] }
      | some (bestArea, bestVotes) =>
        let totalMatched := (res.1.map Prod.snd).sum
        let dominance : ℚ := (bestVotes : ℚ) / (totalMatched : ℚ)
        let coverage : ℚ := (res.2 : ℚ) / (tags.length : ℚ)
        let confidence : ℚ :=
          if res.2 < 2 then 0.3 * dominance * coverage
          else min 0.85 (0.4 + 0.3 * dominance + 0.3 * coverage)
        { area_id := some bestArea, confidence := pyRound confidence 3,
          matched_tags := res.2, area_votes := res.1 }

/-- Result shape of `classify_with_new_taxonomy` in `ai_process.py`. -/
structure ClassifyResult where
  area_id : Option ℤ
  topic_ids : List ℤ
  confidence : ℚ
  needs_review : Bool
  classification_method : String
  deriving Repr, DecidableEq

/-- The JSON object extracted from the language model's raw response:
`area_id`, `topic_ids` and the already-lowercased `confidence` string
(`str(parsed.get("confidence", "media")).lower()`). -/
structure LLMJson where
  area_id : Option ℤ
  topic_ids : List ℤ
  confidence : String
  deriving Repr, DecidableEq

/-- Outcome of the language-generation HTTP call in
`classify_with_new_taxonomy`: `exn` models an exception raised by the call
(network error), `resp status json` a completed request with its status code
and the JSON object found in the response text (`none` when `re.search`
finds no `{...}` group or `json.loads` raises `JSONDecodeError`). -/
inductive LLMOutcome where
  | exn
  | resp (status : ℤ) (json : Option LLMJson)
  deriving Repr, DecidableEq

/-- The LLM-based section of `classify_with_new_taxonomy` (from the prompt
call at line 662 through the fallbacks at lines 720–749), including the
validation of `area_id`/`topic_ids` and the tags fallback. -/
def classify_with_new_taxonomy_llm (transcript description : Option String)
    (signals : List (String × SigVal)) (areas : List ℤ) (topics : List (ℤ × ℤ))
    (llm : LLMOutcome) : ClassifyResult :=
  let method :=
    if pyTruthyStr transcript then "llm_transcript"
    else if pyTruthyStr description ∧ 50 < (description.getD "").length then "llm_description"
    else "llm_minimal"
  match llm with
  | .exn =>
    { area_id := none, topic_ids := [], confidence := 0, needs_review := true,
      classification_method := "error" }
  | .resp status json =>
    match (if status = 200 then json else none) with
    | some j =>
      -- validate area_id against the loaded areas
      let validatedArea : Option ℤ :=
        match j.area_id with
        | some a => if a ∈ areas then some a else none
        | none => none
      -- validate topic_ids: must belong to the selected area (`if area_id:`)
      let topicIds : List ℤ :=
        match validatedArea with
        | some a =>
          if a ≠ 0 then
            j.topic_ids.filter (fun t => t ∈ (topics.filter (fun p => p.2 = a)).map Prod.fst)
          else j.topic_ids
        | none => j.topic_ids
      let conf : ℚ :=
        if j.confidence = "alta" then 0.9
        else if j.confidence = "media" then 0.6
        else if j.confidence = "baja" then 0.3
        else 0.5
      { area_id := validatedArea, topic_ids := topicIds.take 3, confidence := conf,
        needs_review := decide (conf < 0.5), classification_method := method }
    | none =>
      -- LLM failed (bad status, no JSON found, or JSON parse error):
      -- fall back to the combined tag/author signals when any exist
      if ¬signals.isEmpty ∧ areaTruthy (combine_classification_signals signals none).area_id then
        let combined := combine_classification_signals signals none
        { area_id := combined.area_id, topic_ids := [],
          confidence := combined.confidence * 0.8, needs_review := true,
          classification_method := "tags_fallback" }
      else
        { area_id := none, topic_ids := [], confidence := 0, needs_review := true,
          classification_method := "failed" }

/-- `classify_with_new_taxonomy` after signal construction: takes the built
`classification_signals` dict together with the transcript/description and
the modelled LLM call.  The early `tags_only` return (lines 576–593, taken
when there is no transcript, no sufficiently long description, and the
combined available signals produce a truthy area) is followed by the
LLM-based section. -/
def classify_with_new_taxonomy_core (transcript description : Option String)
    (signals : List (String × SigVal)) (areas : List ℤ) (topics : List (ℤ × ℤ))
    (llm : LLMOutcome) : ClassifyResult :=
  if ¬pyTruthyStr transcript ∧
      ¬(pyTruthyStr description ∧ 50 < (description.getD "").length) ∧
      ¬signals.isEmpty ∧
      areaTruthy (combine_classification_signals signals none).area_id then
    let combined := combine_classification_signals signals none
    { area_id := combined.area_id, topic_ids := [], confidence := combined.confidence,
      needs_review := combined.needs_review, classification_method := "tags_only" }
  else
    classify_with_new_taxonomy_llm transcript description signals areas topics llm

/-- Signal construction of `classify_with_new_taxonomy` (lines 555–574):
the tags signal (when `classify_by_tags_only` yields a truthy area) followed
by the author-history signal with fixed confidence 0.6. -/
def build_classification_signals (tags : List String)
    (author_history : List (Option ℤ)) : List (String × SigVal) :=
  (if ¬tags.isEmpty ∧ areaTruthy (classify_by_tags_only tags none).area_id then
    [("tags", SigVal.std (classify_by_tags_only tags none).area_id
        (classify_by_tags_only tags none).confidence)]
   else []) ++
  (match get_dominant_area_from_history author_history with
   | some a => [("author", SigVal.std (some a) 0.6)]
   | none => [])

/-- The per-job counters of an AI-processing job, as created by
`start_ai_processing` (all counters start at 0) and updated by the loop of
`process_ai_job`. -/
structure JobCounters where
  total_videos : ℕ
  processed : ℕ
  transcribed : ℕ
  summarized : ℕ
  categorized : ℕ
  failed : ℕ
  skipped : ℕ
  area_assigned : ℕ
  key_points_added : ℕ
  deriving Repr, DecidableEq

/-- The counters of a freshly started job after `total_videos` has been set to
the length of the fetched record list (lines 1380–1398 and 1251). -/
def initJobCounters (total : ℕ) : JobCounters :=
  { total_videos := total, processed := 0, transcribed := 0, summarized := 0,
    categorized := 0, failed := 0, skipped := 0, area_assigned := 0,
    key_points_added := 0 }

/-- What one call to `process_single_video` reports back to the loop:
either a result dict (with the flags the loop reads, `area_id`/`key_points`
truthiness included) or an exception caught by the per-record guard. -/
inductive VideoOutcome where
  | ok (transcribed summarized categorized area_assigned key_points err : Bool)
  | exn
  deriving Repr, DecidableEq

/-- One iteration of the record loop of `process_ai_job`
(lines 1268–1292): per-stage counters and `failed` bump by at most one,
`processed` by exactly one. -/
def process_ai_job_step (j : JobCounters) (o : VideoOutcome) : JobCounters :=
  match o with
  | .ok t s c a k e =>
    { j with
      transcribed := j.transcribed + (if t then 1 else 0),
      summarized := j.summarized + (if s then 1 else 0),
      categorized := j.categorized + (if c then 1 else 0),
      area_assigned := j.area_assigned + (if a then 1 else 0),
      key_points_added := j.key_points_added + (if k then 1 else 0),
      failed := j.failed + (if e then 1 else 0),
      processed := j.processed + 1 }
  | .exn => { j with failed := j.failed + 1, processed := j.processed + 1 }

/-- The record loop of `process_ai_job` run over (a prefix of) the fetched
records; a pause/cancel break simply stops after a prefix. -/
def process_ai_job_loop (j : JobCounters) (outcomes : List VideoOutcome) : JobCounters :=
  outcomes.foldl process_ai_job_step j

/-- ETA computation after each record (lines 1294–1299):
`avg_time = elapsed / processed`, `remaining = total - processed`,
`eta_minutes = round(remaining * avg_time / 60, 1)`. -/
def compute_eta_minutes (totalVideos processed : ℕ) (elapsed : ℚ) : ℚ :=
  let avgTime := elapsed / (processed : ℚ)
  let remaining : ℚ := (totalVideos : ℚ) - (processed : ℚ)
  pyRound (remaining * avgTime / 60) 1

/-- Snapshot of a job as held in the `processing_jobs` registry, restricted to
the fields touched by the pause/cancel endpoints plus the counters. -/
structure Job where
  id : String
  status : String
  counters : JobCounters
  completed_at : Option String
  deriving Repr, DecidableEq

/-- `pause_ai_job` (lines 1423–1434) on a job found in the registry: an error
leaves the registry entry untouched; success sets the status to `paused`.
The first component is the error detail, if any. -/
def pause_ai_job (j : Job) : Option String × Job :=
  if j.status ≠ "running" then
    (some ("Job is not running (status: " ++ j.status ++ ")"), j)
  else
    (none, { j with status := "paused" })

/-- `cancel_ai_job` (lines 1437–1450) on a job found in the registry: only a
`completed` job is rejected; any other job is marked `cancelled` and
timestamped. -/
def cancel_ai_job (j : Job) (now : String) : Option String × Job :=
  if j.status = "completed" then
    (some "Cannot cancel a completed job", j)
  else
    (none, { j with status := "cancelled", completed_at := some now })

/-- The fields of a record read by step 1 of `process_single_video`. -/
structure VideoRecord where
  transcript : Option String
  has_transcript : Bool
  youtube_id : Option String
  upload_date : Option String
  deriving Repr, DecidableEq

/-- Responses of the external collaborators used by the transcript step:
what each call would return if made. -/
structure TranscriptEnv where
  subtitles : Option String             -- `download_youtube_subtitles` (truthy text or none)
  subtitlesUploadDate : Option String
  youtubeAudioPath : Option String      -- `download_youtube_audio` (existing file or none)
  tiktokAudioPath : Option String       -- `download_tiktok_audio`
  tiktokUploadDate : Option String
  whisperText : Option String           -- `transcribe_audio` (truthy transcript or none)
  whisperTime : ℚ
  deriving Repr, DecidableEq

/-- Outcome of step 1 of `process_single_video` (lines 941–999): the resolved
transcript, the `result` flags, the `update_data` entries, and how many times
each external service was actually called. -/
structure TranscriptStepResult where
  transcript : Option String
  transcript_method : Option String
  transcribed : Bool
  update_transcript : Option String
  update_has_transcript : Bool
  update_upload_date : Option String
  subtitleDownloads : ℕ
  audioDownloads : ℕ
  whisperCalls : ℕ
  deriving Repr, DecidableEq

/-- Helper: `update_data["upload_date"] = d` only when `d` is truthy and the
record has no upload date yet. -/
def captureUploadDate (video : VideoRecord) (d : Option String) : Option String :=
  if pyTruthyStr d ∧ ¬pyTruthyStr video.upload_date then d else none

/-- Step 1 of `process_single_video`: reuse an existing transcript, else (when
transcription is requested) YouTube subtitles with Whisper fallback, or
TikTok audio plus Whisper. -/
def process_single_video_transcript_step (video : VideoRecord)
    (include_transcription : Bool) (isYoutube : Bool) (env : TranscriptEnv) :
    TranscriptStepResult :=
  if pyTruthyStr video.transcript ∧ video.has_transcript then
    { transcript := video.transcript, transcript_method := some "existing",
      transcribed := true, update_transcript := none, update_has_transcript := false,
      update_upload_date := none, subtitleDownloads := 0, audioDownloads := 0,
      whisperCalls := 0 }
  else if include_transcription then
    if isYoutube then
      match env.subtitles with
      | some s =>
        { transcript := some s, transcript_method := some "youtube_subtitles",
          transcribed := true, update_transcript := some s, update_has_transcript := true,
          update_upload_date := captureUploadDate video env.subtitlesUploadDate,
          subtitleDownloads := 1, audioDownloads := 0, whisperCalls := 0 }
      | none =>
        match env.youtubeAudioPath with
        | some _ =>
          match env.whisperText with
          | some t =>
            { transcript := some t, transcript_method := some "whisper_fallback",
              transcribed := true, update_transcript := some t, update_has_transcript := true,
              update_upload_date := captureUploadDate video env.subtitlesUploadDate,
              subtitleDownloads := 1, audioDownloads := 1, whisperCalls := 1 }
          | none =>
            { transcript := none, transcript_method := none, transcribed := false,
              update_transcript := none, update_has_transcript := false,
              update_upload_date := captureUploadDate video env.subtitlesUploadDate,
              subtitleDownloads := 1, audioDownloads := 1, whisperCalls := 1 }
        | none =>
          { transcript := none, transcript_method := none, transcribed := false,
            update_transcript := none, update_has_transcript := false,
            update_upload_date := captureUploadDate video env.subtitlesUploadDate,
            subtitleDownloads := 1, audioDownloads := 0, whisperCalls := 0 }
    else
      if pyTruthyStr video.youtube_id then
        match env.tiktokAudioPath with
        | some _ =>
          match env.whisperText with
          | some t =>
            { transcript := some t, transcript_method := some "whisper",
              transcribed := true, update_transcript := some t, update_has_transcript := true,
              update_upload_date := captureUploadDate video env.tiktokUploadDate,
              subtitleDownloads := 0, audioDownloads := 1, whisperCalls := 1 }
          | none =>
            { transcript := none, transcript_method := none, transcribed := false,
              update_transcript := none, update_has_transcript := false,
              update_upload_date := captureUploadDate video env.tiktokUploadDate,
              subtitleDownloads := 0, audioDownloads := 1, whisperCalls := 1 }
        | none =>
          { transcript := none, transcript_method := none, transcribed := false,
            update_transcript := none, update_has_transcript := false,
            update_upload_date := captureUploadDate video env.tiktokUploadDate,
            subtitleDownloads := 0, audioDownloads := 1, whisperCalls := 0 }
      else
        { transcript := none, transcript_method := none, transcribed := false,
          update_transcript := none, update_has_transcript := false,
          update_upload_date := none, subtitleDownloads := 0, audioDownloads := 0,
          whisperCalls := 0 }
  else
    { transcript := none, transcript_method := none, transcribed := false,
      update_transcript := none, update_has_transcript := false,
      update_upload_date := none, subtitleDownloads := 0, audioDownloads := 0,
      whisperCalls := 0 }

lemma pyRoundInt_ge (x : ℚ) : x - 1/2 ≤ (pyRoundInt x : ℚ) := by
  have h1 : (⌊x⌋ : ℚ) ≤ x := Int.floor_le x
  have h2 : x < ⌊x⌋ + 1 := Int.lt_floor_add_one x
  unfold pyRoundInt
  dsimp only
  split_ifs with hf hg he <;> push_cast <;> linarith

lemma pyRoundInt_le (x : ℚ) : (pyRoundInt x : ℚ) ≤ x + 1/2 := by
  have h1 : (⌊x⌋ : ℚ) ≤ x := Int.floor_le x
  have h2 : x < ⌊x⌋ + 1 := Int.lt_floor_add_one x
  unfold pyRoundInt
  dsimp only
  split_ifs with hf hg he <;> push_cast <;> linarith

lemma le_pyRound {x : ℚ} {nd : ℕ} {n : ℤ} (h : (n : ℚ) / 10 ^ nd ≤ x) :
    (n : ℚ) / 10 ^ nd ≤ pyRound x nd := by
  have hp : (0 : ℚ) < 10 ^ nd := by positivity
  have hn : (n : ℚ) ≤ x * 10 ^ nd := by
    rw [div_le_iff₀ hp] at h
    exact h
  have hb := pyRoundInt_ge (x * 10 ^ nd)
  have : (n : ℚ) - 1 < (pyRoundInt (x * 10 ^ nd) : ℚ) := by linarith
  have hint : n - 1 < pyRoundInt (x * 10 ^ nd) := by exact_mod_cast this
  have hle : n ≤ pyRoundInt (x * 10 ^ nd) := by omega
  unfold pyRound
  gcongr

lemma pyRound_le {x : ℚ} {nd : ℕ} {n : ℤ} (h : x ≤ (n : ℚ) / 10 ^ nd) :
    pyRound x nd ≤ (n : ℚ) / 10 ^ nd := by
  have hp : (0 : ℚ) < 10 ^ nd := by positivity
  have hn : x * 10 ^ nd ≤ (n : ℚ) := by
    rw [le_div_iff₀ hp] at h
    exact h
  have hb := pyRoundInt_le (x * 10 ^ nd)
  have : (pyRoundInt (x * 10 ^ nd) : ℚ) < (n : ℚ) + 1 := by linarith
  have hint : pyRoundInt (x * 10 ^ nd) < n + 1 := by exact_mod_cast this
  have hle : pyRoundInt (x * 10 ^ nd) ≤ n := by omega
  unfold pyRound
  gcongr

lemma pyRound_nonneg {x : ℚ} {nd : ℕ} (h : 0 ≤ x) : 0 ≤ pyRound x nd := by
  have h0 : ((0 : ℤ) : ℚ) / 10 ^ nd ≤ x := by simpa using h
  have := le_pyRound h0
  simpa using this

lemma pyRound_zero (nd : ℕ) : pyRound 0 nd = 0 := by
  unfold pyRound pyRoundInt
  norm_num

lemma dictGet_mem {α β : Type} [DecidableEq α] :
    ∀ {l : List (α × β)} {k : α} {v : β}, dictGet l k = some v → (k, v) ∈ l := by
  intro l
  induction l with
  | nil => intro k v h; simp [dictGet] at h
  | cons p t ih =>
    intro k v h
    obtain ⟨a, b⟩ := p
    by_cases hk : a = k
    · subst hk
      simp [dictGet] at h
      simp [h]
    · simp [dictGet, hk] at h
      exact List.mem_cons_of_mem _ (ih h)

lemma dictGetD_of_mem {α β : Type} [DecidableEq α] :
    ∀ {l : List (α × β)} {k : α} {v : β} (d : β),
      (dictKeys l).Nodup → (k, v) ∈ l → dictGetD l k d = v := by
  intro l
  induction l with
  | nil => intro k v d _ h; simp at h
  | cons p t ih =>
    intro k v d hnd hm
    obtain ⟨a, b⟩ := p
    simp [dictKeys] at hnd
    rcases List.mem_cons.mp hm with hh | ht
    · rw [Prod.ext_iff] at hh
      obtain ⟨h1, h2⟩ := hh
      simp at h1 h2
      subst h1; subst h2
      simp [dictGetD, dictGet]
    · have hak : a ≠ k := by
        intro he
        subst he
        exact hnd.1 v (by simpa using ht)
      simp [dictGetD, dictGet, hak]
      exact ih d hnd.2 ht

lemma dictAdd_getD {α β : Type} [DecidableEq α] [AddMonoid β] :
    ∀ (l : List (α × β)) (k a : α) (v : β),
      dictGetD (dictAdd l k v) a 0 = dictGetD l a 0 + (if k = a then v else 0) := by
  intro l
  induction l with
  | nil =>
    intro k a v
    by_cases hk : k = a
    · subst hk; simp [dictAdd, dictGetD, dictGet]
    · simp [dictAdd, dictGetD, dictGet, hk, Ne.symm hk]
  | cons p t ih =>
    intro k a v
    obtain ⟨x, y⟩ := p
    by_cases hx : x = k
    · subst hx
      by_cases hk : x = a
      · subst hk; simp [dictAdd, dictGetD, dictGet, add_assoc]
      · simp [dictAdd, dictGetD, dictGet, hk]
    · by_cases hxa : x = a
      · subst hxa
        have hk : k ≠ x := fun he => hx he.symm
        simp [dictAdd, Ne.symm hk, dictGetD, dictGet, hk]
      · simp [dictAdd, hx, dictGetD, dictGet, hxa]
        exact ih k a v

lemma mem_dictKeys_dictAdd {α β : Type} [DecidableEq α] [Add β] :
    ∀ (l : List (α × β)) (k a : α) (v : β),
      a ∈ dictKeys (dictAdd l k v) ↔ a ∈ dictKeys l ∨ a = k := by
  intro l
  induction l with
  | nil => intro k a v; simp [dictAdd, dictKeys]
  | cons p t ih =>
    intro k a v
    obtain ⟨x, y⟩ := p
    by_cases hx : x = k
    · subst hx
      simp [dictAdd, dictKeys]
      tauto
    · simp [dictAdd, hx, dictKeys] at *
      rw [ih]
      tauto

lemma dictKeys_dictAdd_nodup {α β : Type} [DecidableEq α] [Add β] :
    ∀ (l : List (α × β)) (k : α) (v : β),
      (dictKeys l).Nodup → (dictKeys (dictAdd l k v)).Nodup := by
  intro l
  induction l with
  | nil => intro k v _; simp [dictAdd, dictKeys]
  | cons p t ih =>
    intro k v hnd
    obtain ⟨x, y⟩ := p
    have h0 : dictKeys ((x, y) :: t) = x :: dictKeys t := rfl
    rw [h0, List.nodup_cons] at hnd
    by_cases hx : x = k
    · subst hx
      have hrw : dictAdd ((x, y) :: t) x v = (x, y + v) :: t := by simp [dictAdd]
      rw [hrw]
      have h1 : dictKeys ((x, y + v) :: t) = x :: dictKeys t := rfl
      rw [h1, List.nodup_cons]
      exact hnd
    · simp only [dictAdd, if_neg hx]
      have h1 : dictKeys ((x, y) :: dictAdd t k v) = x :: dictKeys (dictAdd t k v) := rfl
      rw [h1, List.nodup_cons]
      refine ⟨fun hmem => ?_, ih k v hnd.2⟩
      rcases (mem_dictKeys_dictAdd t k x v).mp hmem with hh | hh
      · exact hnd.1 hh
      · exact hx hh

lemma pyMaxEntry_eq_none_iff {α β : Type} [LinearOrder β] :
    ∀ (l : List (α × β)), pyMaxEntry l = none ↔ l = [] := by
  intro l
  cases l with
  | nil => simp [pyMaxEntry]
  | cons p t =>
    obtain ⟨k, v⟩ := p
    simp only [pyMaxEntry]
    cases pyMaxEntry t with
    | none => simp
    | some e =>
      obtain ⟨k', v'⟩ := e
      by_cases h : v < v' <;> simp [h]

lemma pyMaxEntry_mem {α β : Type} [LinearOrder β] :
    ∀ {l : List (α × β)} {e : α × β}, pyMaxEntry l = some e → e ∈ l := by
  intro l
  induction l with
  | nil => intro e h; simp [pyMaxEntry] at h
  | cons p t ih =>
    intro e h
    obtain ⟨k, v⟩ := p
    simp only [pyMaxEntry] at h
    cases hm : pyMaxEntry t with
    | none =>
      rw [hm] at h
      simp at h
      simp [h]
    | some e' =>
      obtain ⟨k', v'⟩ := e'
      rw [hm] at h
      by_cases hv : v < v'
      · simp [hv] at h
        exact List.mem_cons_of_mem _ (ih (h ▸ hm))
      · simp [hv] at h
        simp [h]

lemma pyMaxEntry_maximal {α β : Type} [LinearOrder β] :
    ∀ {l : List (α × β)} {e : α × β}, pyMaxEntry l = some e →
      ∀ e' ∈ l, e'.2 ≤ e.2 := by
  intro l
  induction l with
  | nil => intro e h; simp [pyMaxEntry] at h
  | cons p t ih =>
    intro e h e' he'
    obtain ⟨k, v⟩ := p
    simp only [pyMaxEntry] at h
    cases hm : pyMaxEntry t with
    | none =>
      have ht : t = [] := (pyMaxEntry_eq_none_iff t).mp hm
      subst ht
      rw [hm] at h
      simp at h
      simp at he'
      subst h; subst he'
      simp
    | some f =>
      obtain ⟨k', v'⟩ := f
      rw [hm] at h
      rcases List.mem_cons.mp he' with hh | hht
      · subst hh
        by_cases hv : v < v'
        · simp [hv] at h
          subst h
          exact le_of_lt hv
        · simp [hv] at h
          subst h
          simp
      · have hle := ih hm e' hht
        by_cases hv : v < v'
        · simp [hv] at h
          subst h
          exact hle
        · simp [hv] at h
          subst h
          simp at hle ⊢
          exact le_trans hle (not_lt.mp hv)

lemma pyMaxEntry_exists {α β : Type} [LinearOrder β] {l : List (α × β)} (h : l ≠ []) :
    ∃ e, pyMaxEntry l = some e := by
  cases hm : pyMaxEntry l with
  | none => exact absurd ((pyMaxEntry_eq_none_iff l).mp hm) h
  | some e => exact ⟨e, rfl⟩

/-- A signal map in which every entry has the standard `{area_id, confidence}`
shape with a non-null area id: entries are given as
`(signal name, area id, confidence)` triples. -/
def stdSignals (sigs : List (String × ℤ × ℚ)) : List (String × SigVal) :=
  sigs.map (fun s => (s.1, SigVal.std (some s.2.1) s.2.2))

/-- The area ids carried by a list of standard signals. -/
def areasOf (sigs : List (String × ℤ × ℚ)) : List ℤ :=
  sigs.map (fun s => s.2.1)

/-- Spec-side restatement (for refinement): the final score of an area is the
sum, over the present signals routed to that area, of
signal weight × signal confidence. -/
def specAreaScoreW (w : List (String × ℚ)) : List (String × ℤ × ℚ) → ℤ → ℚ
  | [], _ => 0
  | s :: t, a => (if s.2.1 = a then weightOf w s.1 * s.2.2 else 0) + specAreaScoreW w t a

/-- Spec-side restatement (for refinement): the total weight actually used is
the sum of the weights of the present signals. -/
def specTotalWeightW (w : List (String × ℚ)) : List (String × ℤ × ℚ) → ℚ
  | [] => 0
  | s :: t => weightOf w s.1 + specTotalWeightW w t

/-- Spec-side area score under the default `SIGNAL_WEIGHTS`. -/
def specAreaScore (sigs : List (String × ℤ × ℚ)) (a : ℤ) : ℚ :=
  specAreaScoreW SIGNAL_WEIGHTS sigs a

/-- Spec-side total weight under the default `SIGNAL_WEIGHTS`. -/
def specTotalWeight (sigs : List (String × ℤ × ℚ)) : ℚ :=
  specTotalWeightW SIGNAL_WEIGHTS sigs

lemma combineStep_std (w : List (String × ℚ)) (acc : List (ℤ × ℚ) × ℚ)
    (name : String) (a : ℤ) (c : ℚ) (ha : a ≠ 0) :
    combineStep w acc (name, SigVal.std (some a) c)
      = (dictAdd acc.1 a (weightOf w name * c), acc.2 + weightOf w name) := by
  simp [combineStep, ha]

lemma combine_foldl_std (w : List (String × ℚ)) :
    ∀ (sigs : List (String × ℤ × ℚ)) (acc : List (ℤ × ℚ) × ℚ),
      (∀ s ∈ sigs, s.2.1 ≠ 0) →
      (∀ a, dictGetD (List.foldl (combineStep w) acc (stdSignals sigs)).1 a 0
          = dictGetD acc.1 a 0 + specAreaScoreW w sigs a)
      ∧ (List.foldl (combineStep w) acc (stdSignals sigs)).2
          = acc.2 + specTotalWeightW w sigs
      ∧ (∀ a, a ∈ dictKeys (List.foldl (combineStep w) acc (stdSignals sigs)).1
          ↔ a ∈ dictKeys acc.1 ∨ a ∈ areasOf sigs)
      ∧ ((dictKeys acc.1).Nodup
          → (dictKeys (List.foldl (combineStep w) acc (stdSignals sigs)).1).Nodup) := by
  intro sigs
  induction sigs with
  | nil =>
    intro acc _
    refine ⟨fun a => ?_, ?_, fun a => ?_, fun h => ?_⟩
    · simp [stdSignals, specAreaScoreW]
    · simp [stdSignals, specTotalWeightW]
    · simp [stdSignals, areasOf]
    · simpa [stdSignals] using h
  | cons s t ih =>
    intro acc hnz
    obtain ⟨name, a0, c0⟩ := s
    have ha0 : a0 ≠ 0 := hnz (name, a0, c0) (List.mem_cons_self _ _)
    have hstep : List.foldl (combineStep w) acc (stdSignals ((name, a0, c0) :: t))
        = List.foldl (combineStep w)
            (dictAdd acc.1 a0 (weightOf w name * c0), acc.2 + weightOf w name)
            (stdSignals t) := by
      simp only [stdSignals, List.map_cons, List.foldl_cons]
      rw [combineStep_std w acc name a0 c0 ha0]
    have hnz' : ∀ s ∈ t, s.2.1 ≠ 0 := fun s hs => hnz s (List.mem_cons_of_mem _ hs)
    obtain ⟨ih1, ih2, ih3, ih4⟩ :=
      ih (dictAdd acc.1 a0 (weightOf w name * c0), acc.2 + weightOf w name) hnz'
    refine ⟨fun a => ?_, ?_, fun a => ?_, fun h => ?_⟩
    · rw [hstep, ih1 a]
      rw [show dictGetD (dictAdd acc.1 a0 (weightOf w name * c0), acc.2 + weightOf w name).1 a 0
            = dictGetD acc.1 a 0 + (if a0 = a then weightOf w name * c0 else 0)
          from dictAdd_getD acc.1 a0 a (weightOf w name * c0)]
      show _ = dictGetD acc.1 a 0
        + ((if a0 = a then weightOf w name * c0 else 0) + specAreaScoreW w t a)
      rw [add_assoc]
    · rw [hstep, ih2]
      show acc.2 + weightOf w name + specTotalWeightW w t
        = acc.2 + (weightOf w name + specTotalWeightW w t)
      rw [add_assoc]
    · rw [hstep, ih3 a]
      have hmem := mem_dictKeys_dictAdd acc.1 a0 a (weightOf w name * c0)
      show a ∈ dictKeys (dictAdd acc.1 a0 (weightOf w name * c0)) ∨ a ∈ areasOf t
        ↔ a ∈ dictKeys acc.1 ∨ a ∈ areasOf ((name, a0, c0) :: t)
      rw [hmem]
      simp [areasOf]
      tauto
    · rw [hstep]
      exact ih4 (dictKeys_dictAdd_nodup acc.1 a0 (weightOf w name * c0) h)

lemma weightOf_SIGNAL_WEIGHTS_pos (n : String) : 0 < weightOf SIGNAL_WEIGHTS n := by
  unfold weightOf dictGetD
  cases h : dictGet SIGNAL_WEIGHTS n with
  | none => norm_num
  | some v =>
    have hm := dictGet_mem h
    simp only [SIGNAL_WEIGHTS, List.mem_cons, List.not_mem_nil, or_false,
      Prod.mk.injEq] at hm
    rcases hm with ⟨-, rfl⟩ | ⟨-, rfl⟩ | ⟨-, rfl⟩ | ⟨-, rfl⟩ <;> norm_num

lemma specTotalWeightW_nonneg (sigs : List (String × ℤ × ℚ)) :
    0 ≤ specTotalWeightW SIGNAL_WEIGHTS sigs := by
  induction sigs with
  | nil => simp [specTotalWeightW]
  | cons s t ih =>
    have := weightOf_SIGNAL_WEIGHTS_pos s.1
    show 0 ≤ weightOf SIGNAL_WEIGHTS s.1 + specTotalWeightW SIGNAL_WEIGHTS t
    linarith

lemma specTotalWeight_pos {sigs : List (String × ℤ × ℚ)} (h : sigs ≠ []) :
    0 < specTotalWeight sigs := by
  cases sigs with
  | nil => exact absurd rfl h
  | cons s t =>
    have h1 := weightOf_SIGNAL_WEIGHTS_pos s.1
    have h2 := specTotalWeightW_nonneg t
    show 0 < weightOf SIGNAL_WEIGHTS s.1 + specTotalWeightW SIGNAL_WEIGHTS t
    linarith

lemma specAreaScoreW_nonneg (sigs : List (String × ℤ × ℚ)) (a : ℤ)
    (hc : ∀ s ∈ sigs, 0 ≤ s.2.2) : 0 ≤ specAreaScoreW SIGNAL_WEIGHTS sigs a := by
  induction sigs with
  | nil => simp [specAreaScoreW]
  | cons s t ih =>
    have hs : 0 ≤ s.2.2 := hc s (List.mem_cons_self _ _)
    have ht : 0 ≤ specAreaScoreW SIGNAL_WEIGHTS t a :=
      ih (fun x hx => hc x (List.mem_cons_of_mem _ hx))
    have hw := weightOf_SIGNAL_WEIGHTS_pos s.1
    show 0 ≤ (if s.2.1 = a then weightOf SIGNAL_WEIGHTS s.1 * s.2.2 else 0)
      + specAreaScoreW SIGNAL_WEIGHTS t a
    have h0 : 0 ≤ (if s.2.1 = a then weightOf SIGNAL_WEIGHTS s.1 * s.2.2 else 0) := by
      split_ifs
      · positivity
      · exact le_refl 0
    linarith

lemma stdSignals_isEmpty_false {sigs : List (String × ℤ × ℚ)} (hne : sigs ≠ []) :
    (stdSignals sigs).isEmpty = false := by
  cases sigs with
  | nil => exact absurd rfl hne
  | cons s t => rfl

lemma combine_std_main (sigs : List (String × ℤ × ℚ)) (hne : sigs ≠ [])
    (hnz : ∀ s ∈ sigs, s.2.1 ≠ 0) :
    ∃ A, A ∈ areasOf sigs ∧ A ≠ 0 ∧
      (∀ b ∈ areasOf sigs, specAreaScore sigs b ≤ specAreaScore sigs A) ∧
      combine_classification_signals (stdSignals sigs) none =
        { area_id := some A,
          confidence := pyRound (min 1 (specAreaScore sigs A / specTotalWeight sigs)) 3,
          needs_review := decide (min 1 (specAreaScore sigs A / specTotalWeight sigs) < 0.4) } := by
  obtain ⟨f1, f2, f3, f4⟩ :=
    combine_foldl_std SIGNAL_WEIGHTS sigs ([], 0) hnz
  set F := List.foldl (combineStep SIGNAL_WEIGHTS) ([], 0) (stdSignals sigs) with hF
  have hlook : ∀ a, dictGetD F.1 a 0 = specAreaScore sigs a := by
    intro a
    have := f1 a
    simpa [dictGetD, dictGet, specAreaScore] using this
  have hkeys : ∀ a, a ∈ dictKeys F.1 ↔ a ∈ areasOf sigs := by
    intro a
    have := f3 a
    simpa [dictKeys] using this
  have hnd : (dictKeys F.1).Nodup := f4 (by simp [dictKeys])
  have htw : F.2 = specTotalWeight sigs := by
    simpa [specTotalWeight] using f2
  have hF1ne : F.1 ≠ [] := by
    cases hsig : sigs with
    | nil => exact absurd hsig hne
    | cons s t =>
      have ha : s.2.1 ∈ areasOf sigs := by
        rw [hsig]
        exact List.mem_map_of_mem _ (List.mem_cons_self _ _)
      have hk := (hkeys s.2.1).mpr ha
      intro hemp
      rw [hemp] at hk
      simp [dictKeys] at hk
  obtain ⟨⟨A, V⟩, hmax⟩ := pyMaxEntry_exists hF1ne
  have hmemAV : (A, V) ∈ F.1 := pyMaxEntry_mem hmax
  have hAkeys : A ∈ dictKeys F.1 := List.mem_map_of_mem _ hmemAV
  have hA : A ∈ areasOf sigs := (hkeys A).mp hAkeys
  have hA0 : A ≠ 0 := by
    obtain ⟨s, hs, hfst⟩ := List.mem_map.mp hA
    exact hfst ▸ hnz s hs
  have hV : V = specAreaScore sigs A := by
    rw [← hlook A]
    exact (dictGetD_of_mem 0 hnd hmemAV).symm
  have hmaxall : ∀ b ∈ areasOf sigs, specAreaScore sigs b ≤ specAreaScore sigs A := by
    intro b hb
    have hbk : b ∈ dictKeys F.1 := (hkeys b).mpr hb
    obtain ⟨⟨b', v⟩, hmem, hfst⟩ := List.mem_map.mp hbk
    simp at hfst
    rw [hfst] at hmem
    have hv : v = specAreaScore sigs b := by
      rw [← hlook b]
      exact (dictGetD_of_mem 0 hnd hmem).symm
    have hle := pyMaxEntry_maximal hmax (b, v) hmem
    simp at hle
    rw [hv, hV] at hle
    exact hle
  have htwpos : 0 < F.2 := by
    rw [htw]
    exact specTotalWeight_pos hne
  refine ⟨A, hA, hA0, hmaxall, ?_⟩
  unfold combine_classification_signals
  rw [stdSignals_isEmpty_false hne]
  simp only [Bool.false_eq_true, if_false, pyDictOr]
  rw [← hF, hmax]
  simp only [if_pos htwpos]
  rw [hV, htw]

/-- Claim C1 (amended): for every non-empty map of present signals, each with a
non-null area id and a non-negative confidence, the combiner accumulates per
area the sum of signal weight × signal confidence, returns an area whose
accumulated score is maximal, returns as final confidence the winning score
divided by the total weight used, clamped above at 1 (and non-negative), then
rounded to 3 decimals, and sets needs_review exactly when the unrounded
clamped confidence is below 0.4. -/
theorem combine_signals_weighted_vote (sigs : List (String × ℤ × ℚ))
    (hne : sigs ≠ []) (hnz : ∀ s ∈ sigs, s.2.1 ≠ 0)
    (hc : ∀ s ∈ sigs, 0 ≤ s.2.2) :
    ∃ A,
      (combine_classification_signals (stdSignals sigs) none).area_id = some A
      ∧ A ∈ areasOf sigs
      ∧ (∀ b ∈ areasOf sigs, specAreaScore sigs b ≤ specAreaScore sigs A)
      ∧ (combine_classification_signals (stdSignals sigs) none).confidence
          = pyRound (min 1 (specAreaScore sigs A / specTotalWeight sigs)) 3
      ∧ 0 ≤ min 1 (specAreaScore sigs A / specTotalWeight sigs)
      ∧ min 1 (specAreaScore sigs A / specTotalWeight sigs) ≤ 1
      ∧ ((combine_classification_signals (stdSignals sigs) none).needs_review = true
          ↔ min 1 (specAreaScore sigs A / specTotalWeight sigs) < 0.4) := by
  obtain ⟨A, hA, hA0, hmaxall, heq⟩ := combine_std_main sigs hne hnz
  have hq : 0 ≤ specAreaScore sigs A / specTotalWeight sigs :=
    div_nonneg (specAreaScoreW_nonneg sigs A hc) (specTotalWeight_pos hne).le
  refine ⟨A, ?_, hA, hmaxall, ?_, ?_, min_le_left _ _, ?_⟩
  · rw [heq]
  · rw [heq]
  · exact le_min (by norm_num) hq
  · rw [heq]
    simp

/-- Witness for C1 at a concrete two-signal map. -/
theorem combine_signals_weighted_vote_witness :
    ∃ A,
      (combine_classification_signals
          (stdSignals [("tags", 1, 0.7), ("author", 2, 0.6)]) none).area_id = some A
      ∧ A ∈ areasOf [("tags", 1, 0.7), ("author", 2, 0.6)]
      ∧ (∀ b ∈ areasOf [("tags", 1, 0.7), ("author", 2, 0.6)],
          specAreaScore [("tags", 1, 0.7), ("author", 2, 0.6)] b
            ≤ specAreaScore [("tags", 1, 0.7), ("author", 2, 0.6)] A)
      ∧ (combine_classification_signals
            (stdSignals [("tags", 1, 0.7), ("author", 2, 0.6)]) none).confidence
          = pyRound (min 1 (specAreaScore [("tags", 1, 0.7), ("author", 2, 0.6)] A
              / specTotalWeight [("tags", 1, 0.7), ("author", 2, 0.6)])) 3
      ∧ 0 ≤ min 1 (specAreaScore [("tags", 1, 0.7), ("author", 2, 0.6)] A
          / specTotalWeight [("tags", 1, 0.7), ("author", 2, 0.6)])
      ∧ min 1 (specAreaScore [("tags", 1, 0.7), ("author", 2, 0.6)] A
          / specTotalWeight [("tags", 1, 0.7), ("author", 2, 0.6)]) ≤ 1
      ∧ ((combine_classification_signals
            (stdSignals [("tags", 1, 0.7), ("author", 2, 0.6)]) none).needs_review = true
          ↔ min 1 (specAreaScore [("tags", 1, 0.7), ("author", 2, 0.6)] A
              / specTotalWeight [("tags", 1, 0.7), ("author", 2, 0.6)]) < 0.4) :=
  combine_signals_weighted_vote [("tags", 1, 0.7), ("author", 2, 0.6)]
    (by decide) (by decide) (by norm_num)

/-- Counterexample to C1 as stated: with signals tags→(area 1, 0.5) and
author→(area 1, 0.6) the returned confidence is 0.514, which is the rounded
value of the exact clamped quotient 18/35 and differs from it. -/
theorem combine_signals_rounding_counterexample :
    (combine_classification_signals
        (stdSignals [("tags", 1, 0.5), ("author", 1, 0.6)]) none).confidence
      = 257/500
    ∧ min 1 (specAreaScore [("tags", 1, 0.5), ("author", 1, 0.6)] 1
        / specTotalWeight [("tags", 1, 0.5), ("author", 1, 0.6)]) = 18/35
    ∧ (257 : ℚ)/500 ≠ 18/35 := by
  refine ⟨?_, ?_, by norm_num⟩
  · simp [combine_classification_signals, combineStep, pyDictOr, SIGNAL_WEIGHTS,
      weightOf, dictGetD, dictGet, dictAdd, pyMaxEntry, pyRound, pyRoundInt, stdSignals]
    norm_num [Int.fract]
  · simp [specAreaScore, specTotalWeight, specAreaScoreW, specTotalWeightW,
      weightOf, dictGetD, dictGet, SIGNAL_WEIGHTS]
    norm_num

/-- Claim C10 (amended): a signal map with exactly one standard signal (non-null
area, confidence in [0,1]) yields that area and confidence rounded to 3
decimals, independently of the signal's weight, provided that weight is
positive. -/
theorem single_signal_confidence (name : String) (a : ℤ) (c : ℚ)
    (weights : Option (List (String × ℚ)))
    (ha : a ≠ 0) (hc0 : 0 ≤ c) (hc1 : c ≤ 1)
    (hw : 0 < weightOf (pyDictOr weights SIGNAL_WEIGHTS) name) :
    (combine_classification_signals [(name, SigVal.std (some a) c)] weights).area_id = some a
    ∧ (combine_classification_signals [(name, SigVal.std (some a) c)] weights).confidence
        = pyRound c 3 := by
  set w := pyDictOr weights SIGNAL_WEIGHTS with hw0
  have hfold : List.foldl (combineStep w) ([], 0) [(name, SigVal.std (some a) c)]
      = ([(a, weightOf w name * c)], 0 + weightOf w name) := by
    rw [List.foldl_cons, List.foldl_nil, combineStep_std w ([], 0) name a c ha]
    rfl
  have hone : pyMaxEntry [(a, weightOf w name * c)] = some (a, weightOf w name * c) := rfl
  have htw : (0 : ℚ) < 0 + weightOf w name := by rw [zero_add]; exact hw
  have hdiv : weightOf w name * c / (0 + weightOf w name) = c := by
    rw [zero_add]
    exact mul_div_cancel_left₀ c (ne_of_gt hw)
  simp only [combine_classification_signals, List.isEmpty_cons, Bool.false_eq_true,
    if_false, ← hw0, hfold, hone]
  rw [if_pos htw, hdiv, min_eq_right hc1]
  exact ⟨trivial, rfl⟩

/-- Witness for C10: a lone tags signal for area 3 with confidence 0.6 under
the default weights. -/
theorem single_signal_confidence_witness :
    (combine_classification_signals [("tags", SigVal.std (some 3) 0.6)] none).area_id = some 3
    ∧ (combine_classification_signals [("tags", SigVal.std (some 3) 0.6)] none).confidence
        = pyRound 0.6 3 :=
  single_signal_confidence "tags" 3 0.6 none (by decide) (by norm_num) (by norm_num)
    (by simp [weightOf, dictGetD, dictGet, SIGNAL_WEIGHTS, pyDictOr] <;> norm_num)

/-- Counterexample to C10 as stated: assigning weight 0 to the lone signal's
type makes the returned confidence 0 rather than the signal's confidence 0.6,
so the result is not independent of the assigned weight. -/
theorem single_signal_zero_weight_counterexample :
    combine_classification_signals [("tags", SigVal.std (some 3) 0.6)]
        (some [("tags", 0)])
      = { area_id := some 3, confidence := 0, needs_review := true }
    ∧ (0 : ℚ) ≠ pyRound 0.6 3 := by
  refine ⟨?_, by norm_num [pyRound, pyRoundInt]⟩
  simp [combine_classification_signals, combineStep, pyDictOr, weightOf,
    dictGetD, dictGet, dictAdd, pyMaxEntry, pyRound, pyRoundInt]
  norm_num

lemma known_base_pos {s : String}
    (h : s ∈ ["transcript", "tags", "description", "author"]) :
    0 < dictGetD SIGNAL_WEIGHTS s 0 := by
  simp only [List.mem_cons, List.not_mem_nil, or_false] at h
  rcases h with rfl | rfl | rfl | rfl <;>
    simp [SIGNAL_WEIGHTS, dictGetD, dictGet] <;> norm_num

lemma known_base_eq {s : String}
    (h : s ∈ ["transcript", "tags", "description", "author"]) :
    dictGetD SIGNAL_WEIGHTS s 0.1 = dictGetD SIGNAL_WEIGHTS s 0 := by
  simp only [List.mem_cons, List.not_mem_nil, or_false] at h
  rcases h with rfl | rfl | rfl | rfl <;>
    simp [SIGNAL_WEIGHTS, dictGetD, dictGet]

lemma list_map_div_sum {α : Type} (l : List α) (f : α → ℚ) (c : ℚ) :
    (l.map (fun s => f s / c)).sum = (l.map f).sum / c := by
  induction l with
  | nil => simp
  | cons a t ih => simp [ih, add_div]

/-- Claim C3: for every non-empty set of available signal names (drawn from the
four known signal types), the adjusted weights are the base weights divided by
the sum of the base weights of the available signals, and they sum to 1. -/
theorem adjusted_weights_sum_to_one (available : List String)
    (hne : available ≠ [])
    (hsub : ∀ s ∈ available, s ∈ ["transcript", "tags", "description", "author"]) :
    ((adjust_weights_for_available_signals available).map Prod.snd).sum = 1
    ∧ adjust_weights_for_available_signals available
        = available.map (fun s =>
            (s, dictGetD SIGNAL_WEIGHTS s 0
              / (available.map (fun x => dictGetD SIGNAL_WEIGHTS x 0)).sum)) := by
  set W := (available.map (fun s => dictGetD SIGNAL_WEIGHTS s 0)).sum with hW
  have hWpos : 0 < W := by
    rw [hW]
    apply List.sum_pos
    · intro x hx
      obtain ⟨s, hs, rfl⟩ := List.mem_map.mp hx
      exact known_base_pos (hsub s hs)
    · intro hnil
      exact hne (List.map_eq_nil_iff.mp hnil)
  have hWne : W ≠ 0 := ne_of_gt hWpos
  have hav : available.isEmpty = false := by
    cases available with
    | nil => exact absurd rfl hne
    | cons s t => rfl
  have hmapeq : adjust_weights_for_available_signals available
      = available.map (fun s => (s, dictGetD SIGNAL_WEIGHTS s 0 / W)) := by
    unfold adjust_weights_for_available_signals
    rw [hav]
    simp only [Bool.false_eq_true, if_false, ← hW, if_neg hWne]
    exact List.map_congr_left (fun s hs => by rw [known_base_eq (hsub s hs)])
  refine ⟨?_, hmapeq⟩
  rw [hmapeq, List.map_map]
  have : (Prod.snd ∘ fun s => (s, dictGetD SIGNAL_WEIGHTS s 0 / W))
      = fun s => dictGetD SIGNAL_WEIGHTS s 0 / W := rfl
  rw [this, list_map_div_sum, ← hW, div_self hWne]

/-- Witness for C3 at the available-signal set `{tags, author}`. -/
theorem adjusted_weights_sum_to_one_witness :
    ((adjust_weights_for_available_signals ["tags", "author"]).map Prod.snd).sum = 1
    ∧ adjust_weights_for_available_signals ["tags", "author"]
        = ["tags", "author"].map (fun s =>
            (s, dictGetD SIGNAL_WEIGHTS s 0
              / ((["tags", "author"] : List String).map
                  (fun x => dictGetD SIGNAL_WEIGHTS x 0)).sum)) :=
  adjusted_weights_sum_to_one ["tags", "author"] (by decide) (by decide)

lemma dictAdd_ne_nil {α β : Type} [DecidableEq α] [Add β] (l : List (α × β)) (k : α) (v : β) :
    dictAdd l k v ≠ [] := by
  cases l with
  | nil => simp [dictAdd]
  | cons p t =>
    obtain ⟨a, b⟩ := p
    by_cases h : a = k <;> simp [dictAdd, h]

lemma countVotes_ne_nil_preserved (m : List (String × ℤ)) :
    ∀ (tags : List String) (acc : List (ℤ × ℕ) × ℕ),
      acc.1 ≠ [] → (List.foldl (countVotesStep m) acc tags).1 ≠ [] := by
  intro tags
  induction tags with
  | nil => intro acc h; exact h
  | cons t ts ih =>
    intro acc h
    rw [List.foldl_cons]
    unfold countVotesStep
    cases hg : dictGet m (normTag t) with
    | none => exact ih acc h
    | some areaId => exact ih _ (dictAdd_ne_nil acc.1 areaId 1)

lemma countVotes_matched_of_empty (m : List (String × ℤ)) :
    ∀ (tags : List String) (acc : List (ℤ × ℕ) × ℕ),
      (List.foldl (countVotesStep m) acc tags).1 = []
      → (List.foldl (countVotesStep m) acc tags).2 = acc.2 := by
  intro tags
  induction tags with
  | nil => intro acc _; rfl
  | cons t ts ih =>
    intro acc h
    rw [List.foldl_cons] at h ⊢
    unfold countVotesStep at h ⊢
    cases hg : dictGet m (normTag t) with
    | none =>
      rw [hg] at h
      exact ih acc h
    | some areaId =>
      rw [hg] at h
      exact absurd h (countVotes_ne_nil_preserved m ts _ (dictAdd_ne_nil acc.1 areaId 1))

lemma dictAdd_one_pos (l : List (ℤ × ℕ)) (k : ℤ) (h : ∀ e ∈ l, 1 ≤ e.2) :
    ∀ e ∈ dictAdd l k 1, 1 ≤ e.2 := by
  induction l with
  | nil =>
    intro e he
    simp [dictAdd] at he
    simp [he]
  | cons p t ih =>
    obtain ⟨a, b⟩ := p
    intro e he
    by_cases hk : a = k
    · simp only [dictAdd, if_pos hk] at he
      rcases List.mem_cons.mp he with rfl | ht
      · simp
      · exact h e (List.mem_cons_of_mem _ ht)
    · simp only [dictAdd, if_neg hk] at he
      rcases List.mem_cons.mp he with rfl | ht
      · exact h (a, b) (List.mem_cons_self _ _)
      · exact ih (fun x hx => h x (List.mem_cons_of_mem _ hx)) e ht

lemma countVotes_votes_pos (m : List (String × ℤ)) :
    ∀ (tags : List String) (acc : List (ℤ × ℕ) × ℕ),
      (∀ e ∈ acc.1, 1 ≤ e.2)
      → ∀ e ∈ (List.foldl (countVotesStep m) acc tags).1, 1 ≤ e.2 := by
  intro tags
  induction tags with
  | nil => intro acc h; exact h
  | cons t ts ih =>
    intro acc h
    rw [List.foldl_cons]
    unfold countVotesStep
    cases hg : dictGet m (normTag t) with
    | none => exact ih acc h
    | some areaId => exact ih _ (dictAdd_one_pos acc.1 areaId h)

lemma countVotes_matched_le (m : List (String × ℤ)) :
    ∀ (tags : List String) (acc : List (ℤ × ℕ) × ℕ),
      (List.foldl (countVotesStep m) acc tags).2 ≤ acc.2 + tags.length := by
  intro tags
  induction tags with
  | nil => intro acc; simp
  | cons t ts ih =>
    intro acc
    rw [List.foldl_cons]
    unfold countVotesStep
    cases hg : dictGet m (normTag t) with
    | none =>
      calc (List.foldl (countVotesStep m) acc ts).2
          ≤ acc.2 + ts.length := ih acc
        _ ≤ acc.2 + (t :: ts).length := by simp only [List.length_cons]; omega
    | some areaId =>
      calc (List.foldl (countVotesStep m) (dictAdd acc.1 areaId 1, acc.2 + 1) ts).2
          ≤ acc.2 + 1 + ts.length := ih _
        _ ≤ acc.2 + (t :: ts).length := by simp only [List.length_cons]; omega

/-- Spec-side restatement: dominance = winning area's votes / total matched votes. -/
def specDominance (votes : List (ℤ × ℕ)) (v : ℕ) : ℚ :=
  (v : ℚ) / (((votes.map Prod.snd).sum : ℕ) : ℚ)

/-- Spec-side restatement: coverage = matched tags / total tags. -/
def specCoverage (matched totalTags : ℕ) : ℚ :=
  (matched : ℚ) / (totalTags : ℚ)

/-- Spec-side restatement: the two-branch tag-signal confidence formula. -/
def specTagConfidence (matched : ℕ) (dom cov : ℚ) : ℚ :=
  if matched < 2 then 0.3 * dom * cov
  else min 0.85 (0.4 + 0.3 * dom + 0.3 * cov)

/-- Claim C2 (amended): for every tag list with at least one matching tag, the
tag signal picks an area of maximal vote count, its returned confidence is the
dominance/coverage formula (low branch below 2 matches, capped branch
otherwise) rounded to 3 decimals; with ≥2 matches the returned confidence lies
in [0.4, 0.85], with fewer it is strictly below the 2+ formula value at the
same dominance and coverage; tags ["fitness","gym","marketing"] (areas 1,1,2)
yield area 1 with votes 2 of 3, full coverage and confidence 0.85. -/
theorem tags_only_confidence (tags : List String)
    (custom_mappings : Option (List (String × ℤ)))
    (hmatch : 1 ≤ (countVotes tags (pyDictOr custom_mappings TAG_AREA_MAPPINGS)).2) :
    (∃ A V,
      pyMaxEntry (countVotes tags (pyDictOr custom_mappings TAG_AREA_MAPPINGS)).1
        = some (A, V)
      ∧ (classify_by_tags_only tags custom_mappings).area_id = some A
      ∧ (∀ e ∈ (countVotes tags (pyDictOr custom_mappings TAG_AREA_MAPPINGS)).1,
          e.2 ≤ V)
      ∧ (classify_by_tags_only tags custom_mappings).matched_tags
          = (countVotes tags (pyDictOr custom_mappings TAG_AREA_MAPPINGS)).2
      ∧ (classify_by_tags_only tags custom_mappings).confidence
          = pyRound (specTagConfidence
              (countVotes tags (pyDictOr custom_mappings TAG_AREA_MAPPINGS)).2
              (specDominance
                (countVotes tags (pyDictOr custom_mappings TAG_AREA_MAPPINGS)).1 V)
              (specCoverage
                (countVotes tags (pyDictOr custom_mappings TAG_AREA_MAPPINGS)).2
                tags.length)) 3
      ∧ (2 ≤ (countVotes tags (pyDictOr custom_mappings TAG_AREA_MAPPINGS)).2
          → 0.4 ≤ (classify_by_tags_only tags custom_mappings).confidence
            ∧ (classify_by_tags_only tags custom_mappings).confidence ≤ 0.85)
      ∧ ((countVotes tags (pyDictOr custom_mappings TAG_AREA_MAPPINGS)).2 < 2
          → (classify_by_tags_only tags custom_mappings).confidence
            < min 0.85 (0.4
                + 0.3 * specDominance
                    (countVotes tags (pyDictOr custom_mappings TAG_AREA_MAPPINGS)).1 V
                + 0.3 * specCoverage
                    (countVotes tags (pyDictOr custom_mappings TAG_AREA_MAPPINGS)).2
                    tags.length)))
    ∧ classify_by_tags_only ["fitness", "gym", "marketing"] none
        = { area_id := some 1, confidence := 0.85, matched_tags := 3,
            area_votes := [(1, 2), (2, 1)] } := by
  set m := pyDictOr custom_mappings TAG_AREA_MAPPINGS with hm
  set cv := countVotes tags m with hcv
  have htags : tags ≠ [] := by
    intro he
    rw [hcv, he] at hmatch
    simp [countVotes] at hmatch
  have hcv1ne : cv.1 ≠ [] := by
    intro he
    have h0 : cv.2 = 0 := by
      rw [hcv] at he ⊢
      exact countVotes_matched_of_empty m tags ([], 0) he
    omega
  obtain ⟨⟨A, V⟩, hmax⟩ := pyMaxEntry_exists hcv1ne
  have hposall : ∀ e ∈ cv.1, 1 ≤ e.2 := by
    rw [hcv]
    exact countVotes_votes_pos m tags ([], 0) (by simp)
  have hVpos : 1 ≤ V := hposall (A, V) (pyMaxEntry_mem hmax)
  have hVle : V ≤ (cv.1.map Prod.snd).sum :=
    List.single_le_sum (fun b _ => Nat.zero_le b) V
      (List.mem_map_of_mem Prod.snd (pyMaxEntry_mem hmax))
  have hsumpos : 1 ≤ (cv.1.map Prod.snd).sum := le_trans hVpos hVle
  have hmle : cv.2 ≤ tags.length := by
    rw [hcv]
    have := countVotes_matched_le m tags ([], 0)
    simpa using this
  have htagsE : tags.isEmpty = false := by
    cases tags with
    | nil => exact absurd rfl htags
    | cons a b => rfl
  have hcve : cv.1.isEmpty = false := by
    cases hc1 : cv.1 with
    | nil => exact absurd hc1 hcv1ne
    | cons a b => rfl
  have hr : classify_by_tags_only tags custom_mappings =
      { area_id := some A,
        confidence := pyRound (specTagConfidence cv.2 (specDominance cv.1 V)
          (specCoverage cv.2 tags.length)) 3,
        matched_tags := cv.2, area_votes := cv.1 } := by
    simp only [classify_by_tags_only, htagsE, Bool.false_eq_true, if_false,
      ← hm, ← hcv, hcve, hmax]
    rfl
  -- numeric facts about dominance and coverage
  have hdompos : 0 < specDominance cv.1 V := by
    unfold specDominance
    apply div_pos
    · exact_mod_cast hVpos
    · exact_mod_cast hsumpos
  have hdomle : specDominance cv.1 V ≤ 1 := by
    unfold specDominance
    rw [div_le_one (by exact_mod_cast hsumpos)]
    exact_mod_cast hVle
  have hcovpos : 0 < specCoverage cv.2 tags.length := by
    unfold specCoverage
    apply div_pos
    · exact_mod_cast hmatch
    · have : 1 ≤ tags.length := le_trans hmatch hmle
      exact_mod_cast this
  have hcovle : specCoverage cv.2 tags.length ≤ 1 := by
    unfold specCoverage
    have hlen : 0 < tags.length := lt_of_lt_of_le Nat.one_pos (le_trans hmatch hmle)
    rw [div_le_one (by exact_mod_cast hlen)]
    exact_mod_cast hmle
  have hminlo : (0.4 : ℚ) ≤ min 0.85 (0.4 + 0.3 * specDominance cv.1 V
      + 0.3 * specCoverage cv.2 tags.length) := by
    apply le_min
    · norm_num
    · nlinarith [hdompos, hcovpos]
  refine ⟨⟨A, V, hmax, ?_, ?_, ?_, ?_, ?_, ?_⟩, ?_⟩
  · rw [hr]
  · intro e he
    have := pyMaxEntry_maximal hmax e he
    simpa using this
  · rw [hr]
  · rw [hr]
  · intro h2
    rw [hr]
    dsimp only
    unfold specTagConfidence
    rw [if_neg (by omega)]
    constructor
    · have hlow : ((400 : ℤ) : ℚ) / 10 ^ 3 ≤ min 0.85 (0.4 + 0.3 * specDominance cv.1 V
          + 0.3 * specCoverage cv.2 tags.length) := by
        calc ((400 : ℤ) : ℚ) / 10 ^ 3 = 0.4 := by norm_num
          _ ≤ _ := hminlo
      have := le_pyRound hlow
      calc (0.4 : ℚ) = ((400 : ℤ) : ℚ) / 10 ^ 3 := by norm_num
        _ ≤ _ := this
    · have hhi : min 0.85 (0.4 + 0.3 * specDominance cv.1 V
          + 0.3 * specCoverage cv.2 tags.length) ≤ ((850 : ℤ) : ℚ) / 10 ^ 3 := by
        calc min 0.85 (0.4 + 0.3 * specDominance cv.1 V
              + 0.3 * specCoverage cv.2 tags.length) ≤ 0.85 := min_le_left _ _
          _ = ((850 : ℤ) : ℚ) / 10 ^ 3 := by norm_num
      have := pyRound_le hhi
      calc pyRound (min 0.85 (0.4 + 0.3 * specDominance cv.1 V
            + 0.3 * specCoverage cv.2 tags.length)) 3
          ≤ ((850 : ℤ) : ℚ) / 10 ^ 3 := this
        _ = 0.85 := by norm_num
  · intro h2
    rw [hr]
    dsimp only
    unfold specTagConfidence
    rw [if_pos h2]
    have hle3 : 0.3 * specDominance cv.1 V * specCoverage cv.2 tags.length
        ≤ ((300 : ℤ) : ℚ) / 10 ^ 3 := by
      have : ((300 : ℤ) : ℚ) / 10 ^ 3 = 0.3 := by norm_num
      rw [this]
      nlinarith [hdompos, hcovpos, hdomle, hcovle]
    have hb := pyRound_le hle3
    calc pyRound (0.3 * specDominance cv.1 V * specCoverage cv.2 tags.length) 3
        ≤ ((300 : ℤ) : ℚ) / 10 ^ 3 := hb
      _ < 0.4 := by norm_num
      _ ≤ _ := hminlo
  · have h1 : countVotes ["fitness", "gym", "marketing"]
        (pyDictOr none TAG_AREA_MAPPINGS) = ([(1, 2), (2, 1)], 3) := by decide
    have h2 : pyMaxEntry ([(1, 2), (2, 1)] : List (ℤ × ℕ)) = some (1, 2) := by decide
    simp only [classify_by_tags_only, List.isEmpty_cons, Bool.false_eq_true, if_false,
      h1, h2]
    norm_num [pyRound, pyRoundInt]

/-- Witness for C2 at the scenario tag list with the default tag table. -/
theorem tags_only_confidence_witness :
    (∃ A V,
      pyMaxEntry (countVotes ["fitness", "gym", "marketing"]
          (pyDictOr none TAG_AREA_MAPPINGS)).1 = some (A, V)
      ∧ (classify_by_tags_only ["fitness", "gym", "marketing"] none).area_id = some A
      ∧ (∀ e ∈ (countVotes ["fitness", "gym", "marketing"]
            (pyDictOr none TAG_AREA_MAPPINGS)).1, e.2 ≤ V)
      ∧ (classify_by_tags_only ["fitness", "gym", "marketing"] none).matched_tags
          = (countVotes ["fitness", "gym", "marketing"]
              (pyDictOr none TAG_AREA_MAPPINGS)).2
      ∧ (classify_by_tags_only ["fitness", "gym", "marketing"] none).confidence
          = pyRound (specTagConfidence
              (countVotes ["fitness", "gym", "marketing"]
                (pyDictOr none TAG_AREA_MAPPINGS)).2
              (specDominance
                (countVotes ["fitness", "gym", "marketing"]
                  (pyDictOr none TAG_AREA_MAPPINGS)).1 V)
              (specCoverage
                (countVotes ["fitness", "gym", "marketing"]
                  (pyDictOr none TAG_AREA_MAPPINGS)).2
                (["fitness", "gym", "marketing"] : List String).length)) 3
      ∧ (2 ≤ (countVotes ["fitness", "gym", "marketing"]
            (pyDictOr none TAG_AREA_MAPPINGS)).2
          → 0.4 ≤ (classify_by_tags_only ["fitness", "gym", "marketing"] none).confidence
            ∧ (classify_by_tags_only ["fitness", "gym", "marketing"] none).confidence ≤ 0.85)
      ∧ ((countVotes ["fitness", "gym", "marketing"]
            (pyDictOr none TAG_AREA_MAPPINGS)).2 < 2
          → (classify_by_tags_only ["fitness", "gym", "marketing"] none).confidence
            < min 0.85 (0.4
                + 0.3 * specDominance
                    (countVotes ["fitness", "gym", "marketing"]
                      (pyDictOr none TAG_AREA_MAPPINGS)).1 V
                + 0.3 * specCoverage
                    (countVotes ["fitness", "gym", "marketing"]
                      (pyDictOr none TAG_AREA_MAPPINGS)).2
                    (["fitness", "gym", "marketing"] : List String).length)))
    ∧ classify_by_tags_only ["fitness", "gym", "marketing"] none
        = { area_id := some 1, confidence := 0.85, matched_tags := 3,
            area_votes := [(1, 2), (2, 1)] } :=
  tags_only_confidence ["fitness", "gym", "marketing"] none (by decide)

/-- Counterexample to C2 as stated: seven matching tags with votes 3/2/2 give
dominance 3/7 and coverage 1, whose 2+ formula value is 29/35, while the
returned confidence is the rounded 0.829 ≠ 29/35. -/
theorem tags_confidence_rounding_counterexample :
    (classify_by_tags_only ["t1", "t2", "t3", "t4", "t5", "t6", "t7"]
        (some [("t1", 1), ("t2", 1), ("t3", 1), ("t4", 2), ("t5", 2), ("t6", 3),
          ("t7", 3)])).confidence = 829/1000
    ∧ specTagConfidence 7 (specDominance [(1, 3), (2, 2), (3, 2)] 3)
        (specCoverage 7 7) = 29/35
    ∧ (829 : ℚ)/1000 ≠ 29/35 := by
  refine ⟨?_, ?_, by norm_num⟩
  · have h1 : countVotes ["t1", "t2", "t3", "t4", "t5", "t6", "t7"]
        (pyDictOr (some [("t1", 1), ("t2", 1), ("t3", 1), ("t4", 2), ("t5", 2),
          ("t6", 3), ("t7", 3)]) TAG_AREA_MAPPINGS)
        = ([(1, 3), (2, 2), (3, 2)], 7) := by decide
    have h2 : pyMaxEntry ([(1, 3), (2, 2), (3, 2)] : List (ℤ × ℕ)) = some (1, 3) := by
      decide
    simp only [classify_by_tags_only, List.isEmpty_cons, Bool.false_eq_true, if_false,
      h1, h2]
    norm_num [pyRound, pyRoundInt, Int.fract]
  · norm_num [specTagConfidence, specDominance, specCoverage]

/-- Claim C6 (amended): pausing any non-running job fails and leaves the
snapshot unchanged; cancelling fails (leaving the snapshot unchanged) exactly
when the job is completed, while cancelling a paused, cancelled, failed or
pending job succeeds and marks it cancelled with a completion timestamp. -/
theorem pause_cancel_non_running (j : Job) (now : String) (h : j.status ≠ "running") :
    pause_ai_job j = (some ("Job is not running (status: " ++ j.status ++ ")"), j)
    ∧ (j.status = "completed"
        → cancel_ai_job j now = (some "Cannot cancel a completed job", j))
    ∧ (j.status ≠ "completed"
        → (cancel_ai_job j now).1 = none
          ∧ (cancel_ai_job j now).2
              = { j with status := "cancelled", completed_at := some now }) := by
  refine ⟨?_, fun hc => ?_, fun hc => ?_⟩
  · simp [pause_ai_job, h]
  · simp [cancel_ai_job, hc]
  · simp [cancel_ai_job, hc]

/-- A terminal job used to exercise the pause/cancel contracts. -/
def exampleCompletedJob : Job :=
  { id := "ai_process_1700000000", status := "completed",
    counters := initJobCounters 5, completed_at := some "2024-01-01T00:00:00" }

/-- A paused job used to exercise the cancel contract. -/
def examplePausedJob : Job :=
  { id := "ai_process_1700000001", status := "paused",
    counters := initJobCounters 5, completed_at := none }

/-- Witness for C6 at a completed job. -/
theorem pause_cancel_non_running_witness :
    pause_ai_job exampleCompletedJob
      = (some ("Job is not running (status: " ++ exampleCompletedJob.status ++ ")"),
          exampleCompletedJob)
    ∧ (exampleCompletedJob.status = "completed"
        → cancel_ai_job exampleCompletedJob "2024-01-02T00:00:00"
            = (some "Cannot cancel a completed job", exampleCompletedJob))
    ∧ (exampleCompletedJob.status ≠ "completed"
        → (cancel_ai_job exampleCompletedJob "2024-01-02T00:00:00").1 = none
          ∧ (cancel_ai_job exampleCompletedJob "2024-01-02T00:00:00").2
              = { exampleCompletedJob with
                  status := "cancelled"
                  completed_at := some "2024-01-02T00:00:00" }) :=
  pause_cancel_non_running exampleCompletedJob "2024-01-02T00:00:00" (by decide)

/-- Counterexample to C6 as stated: cancelling a paused (hence non-running)
job succeeds and changes the snapshot instead of failing. -/
theorem cancel_paused_job_counterexample :
    examplePausedJob.status ≠ "running"
    ∧ (cancel_ai_job examplePausedJob "2024-01-02T00:00:00").1 = none
    ∧ (cancel_ai_job examplePausedJob "2024-01-02T00:00:00").2 ≠ examplePausedJob
    ∧ (cancel_ai_job examplePausedJob "2024-01-02T00:00:00").2.status = "cancelled" := by
  refine ⟨by decide, by decide, by decide, by decide⟩

lemma step_processed (j : JobCounters) (o : VideoOutcome) :
    (process_ai_job_step j o).processed = j.processed + 1 := by
  cases o <;> rfl

lemma step_skipped (j : JobCounters) (o : VideoOutcome) :
    (process_ai_job_step j o).skipped = j.skipped := by
  cases o <;> rfl

lemma step_total (j : JobCounters) (o : VideoOutcome) :
    (process_ai_job_step j o).total_videos = j.total_videos := by
  cases o <;> rfl

lemma step_transcribed (j : JobCounters) (o : VideoOutcome) :
    (process_ai_job_step j o).transcribed ≤ j.transcribed + 1 := by
  cases o with
  | ok t s c a k e => simp only [process_ai_job_step]; split <;> omega
  | exn => simp [process_ai_job_step]

lemma step_summarized (j : JobCounters) (o : VideoOutcome) :
    (process_ai_job_step j o).summarized ≤ j.summarized + 1 := by
  cases o with
  | ok t s c a k e => simp only [process_ai_job_step]; split <;> omega
  | exn => simp [process_ai_job_step]

lemma step_categorized (j : JobCounters) (o : VideoOutcome) :
    (process_ai_job_step j o).categorized ≤ j.categorized + 1 := by
  cases o with
  | ok t s c a k e => simp only [process_ai_job_step]; split <;> omega
  | exn => simp [process_ai_job_step]

lemma step_area_assigned (j : JobCounters) (o : VideoOutcome) :
    (process_ai_job_step j o).area_assigned ≤ j.area_assigned + 1 := by
  cases o with
  | ok t s c a k e => simp only [process_ai_job_step]; split <;> omega
  | exn => simp [process_ai_job_step]

lemma step_key_points (j : JobCounters) (o : VideoOutcome) :
    (process_ai_job_step j o).key_points_added ≤ j.key_points_added + 1 := by
  cases o with
  | ok t s c a k e => simp only [process_ai_job_step]; split <;> omega
  | exn => simp [process_ai_job_step]

lemma step_failed (j : JobCounters) (o : VideoOutcome) :
    (process_ai_job_step j o).failed ≤ j.failed + 1 := by
  cases o with
  | ok t s c a k e => simp only [process_ai_job_step]; split <;> omega
  | exn => simp [process_ai_job_step]

lemma loop_le (f : JobCounters → ℕ)
    (hf : ∀ j o, f (process_ai_job_step j o) ≤ f j + 1) :
    ∀ (outcomes : List VideoOutcome) (j : JobCounters),
      f (process_ai_job_loop j outcomes) ≤ f j + outcomes.length := by
  intro outcomes
  induction outcomes with
  | nil => intro j; simp [process_ai_job_loop]
  | cons o t ih =>
    intro j
    calc f (process_ai_job_loop j (o :: t))
        = f (process_ai_job_loop (process_ai_job_step j o) t) := rfl
      _ ≤ f (process_ai_job_step j o) + t.length := ih _
      _ ≤ f j + 1 + t.length := by have := hf j o; omega
      _ = f j + (o :: t).length := by simp only [List.length_cons]; omega

lemma loop_eq (f : JobCounters → ℕ)
    (hf : ∀ j o, f (process_ai_job_step j o) = f j) :
    ∀ (outcomes : List VideoOutcome) (j : JobCounters),
      f (process_ai_job_loop j outcomes) = f j := by
  intro outcomes
  induction outcomes with
  | nil => intro j; simp [process_ai_job_loop]
  | cons o t ih =>
    intro j
    calc f (process_ai_job_loop j (o :: t))
        = f (process_ai_job_loop (process_ai_job_step j o) t) := rfl
      _ = f (process_ai_job_step j o) := ih _
      _ = f j := hf j o

lemma loop_processed :
    ∀ (outcomes : List VideoOutcome) (j : JobCounters),
      (process_ai_job_loop j outcomes).processed = j.processed + outcomes.length := by
  intro outcomes
  induction outcomes with
  | nil => intro j; simp [process_ai_job_loop]
  | cons o t ih =>
    intro j
    calc (process_ai_job_loop j (o :: t)).processed
        = (process_ai_job_loop (process_ai_job_step j o) t).processed := rfl
      _ = (process_ai_job_step j o).processed + t.length := ih _
      _ = j.processed + 1 + t.length := by rw [step_processed]
      _ = j.processed + (o :: t).length := by simp only [List.length_cons]; omega

/-- Claim C7: once `total` is set to the length of the fetched record list,
every counter of the job stays bounded by `total` after any prefix of the loop
(a pause/cancel break stops after a prefix); each iteration adds exactly 1 to
`processed` and at most 1 to every per-stage counter, and a prefix has at most
`total` iterations. -/
theorem job_counters_never_exceed_total (outcomes : List VideoOutcome) (n : ℕ) :
    ((process_ai_job_loop (initJobCounters outcomes.length) (outcomes.take n)).total_videos
        = outcomes.length
      ∧ (process_ai_job_loop (initJobCounters outcomes.length) (outcomes.take n)).processed
          ≤ outcomes.length
      ∧ (process_ai_job_loop (initJobCounters outcomes.length) (outcomes.take n)).transcribed
          ≤ outcomes.length
      ∧ (process_ai_job_loop (initJobCounters outcomes.length) (outcomes.take n)).summarized
          ≤ outcomes.length
      ∧ (process_ai_job_loop (initJobCounters outcomes.length) (outcomes.take n)).categorized
          ≤ outcomes.length
      ∧ (process_ai_job_loop (initJobCounters outcomes.length) (outcomes.take n)).area_assigned
          ≤ outcomes.length
      ∧ (process_ai_job_loop (initJobCounters outcomes.length) (outcomes.take n)).key_points_added
          ≤ outcomes.length
      ∧ (process_ai_job_loop (initJobCounters outcomes.length) (outcomes.take n)).failed
          ≤ outcomes.length
      ∧ (process_ai_job_loop (initJobCounters outcomes.length) (outcomes.take n)).skipped
          ≤ outcomes.length)
    ∧ (∀ (j : JobCounters) (o : VideoOutcome),
        (process_ai_job_step j o).processed = j.processed + 1
        ∧ (process_ai_job_step j o).transcribed ≤ j.transcribed + 1
        ∧ (process_ai_job_step j o).summarized ≤ j.summarized + 1
        ∧ (process_ai_job_step j o).categorized ≤ j.categorized + 1
        ∧ (process_ai_job_step j o).area_assigned ≤ j.area_assigned + 1
        ∧ (process_ai_job_step j o).key_points_added ≤ j.key_points_added + 1
        ∧ (process_ai_job_step j o).failed ≤ j.failed + 1
        ∧ (process_ai_job_step j o).skipped = j.skipped)
    ∧ (outcomes.take n).length ≤ outcomes.length := by
  have hlen : (outcomes.take n).length ≤ outcomes.length := by
    rw [List.length_take]
    exact min_le_right _ _
  have hbound : ∀ (f : JobCounters → ℕ),
      (∀ j o, f (process_ai_job_step j o) ≤ f j + 1) →
      f (initJobCounters outcomes.length) = 0 →
      f (process_ai_job_loop (initJobCounters outcomes.length) (outcomes.take n))
        ≤ outcomes.length := by
    intro f hf h0
    have := loop_le f hf (outcomes.take n) (initJobCounters outcomes.length)
    rw [h0] at this
    omega
  refine ⟨⟨?_, ?_, ?_, ?_, ?_, ?_, ?_, ?_, ?_⟩, ?_, hlen⟩
  · exact loop_eq (fun j => j.total_videos) step_total (outcomes.take n) _
  · have := loop_processed (outcomes.take n) (initJobCounters outcomes.length)
    rw [this]
    simpa [initJobCounters] using hlen
  · exact hbound (fun j => j.transcribed) step_transcribed rfl
  · exact hbound (fun j => j.summarized) step_summarized rfl
  · exact hbound (fun j => j.categorized) step_categorized rfl
  · exact hbound (fun j => j.area_assigned) step_area_assigned rfl
  · exact hbound (fun j => j.key_points_added) step_key_points rfl
  · exact hbound (fun j => j.failed) step_failed rfl
  · have := loop_eq (fun j => j.skipped) step_skipped (outcomes.take n)
      (initJobCounters outcomes.length)
    rw [this]
    exact Nat.zero_le _
  · intro j o
    exact ⟨step_processed j o, step_transcribed j o, step_summarized j o,
      step_categorized j o, step_area_assigned j o, step_key_points j o,
      step_failed j o, step_skipped j o⟩

/-- Claim C8 (amended): after each record the stored ETA equals
`(remaining × elapsed / processed) / 60` rounded to one decimal, it is
non-negative, and it is 0 when processed = total. -/
theorem eta_formula (total processed : ℕ) (elapsed : ℚ)
    (h0 : 0 < processed) (hle : processed ≤ total) (hel : 0 ≤ elapsed) :
    compute_eta_minutes total processed elapsed
      = pyRound (((total : ℚ) - (processed : ℚ)) * elapsed / (processed : ℚ) / 60) 1
    ∧ 0 ≤ compute_eta_minutes total processed elapsed
    ∧ (processed = total → compute_eta_minutes total processed elapsed = 0) := by
  have hrem : (0 : ℚ) ≤ (total : ℚ) - (processed : ℚ) := by
    rw [sub_nonneg]
    exact_mod_cast hle
  have hppos : (0 : ℚ) ≤ (processed : ℚ) := by positivity
  refine ⟨?_, ?_, ?_⟩
  · simp only [compute_eta_minutes]
    congr 1
    ring
  · simp only [compute_eta_minutes]
    apply pyRound_nonneg
    have h1 : (0 : ℚ) ≤ elapsed / (processed : ℚ) := div_nonneg hel hppos
    have h2 : (0 : ℚ) ≤ ((total : ℚ) - (processed : ℚ)) * (elapsed / (processed : ℚ)) :=
      mul_nonneg hrem h1
    positivity
  · intro he
    subst he
    simp only [compute_eta_minutes, sub_self, zero_mul, zero_div]
    exact pyRound_zero 1

/-- Witness for C8 at total = 2, processed = 1, elapsed = 1 second. -/
theorem eta_formula_witness :
    compute_eta_minutes 2 1 1
      = pyRound (((2 : ℚ) - (1 : ℚ)) * 1 / (1 : ℚ) / 60) 1
    ∧ 0 ≤ compute_eta_minutes 2 1 1
    ∧ ((1 : ℕ) = 2 → compute_eta_minutes 2 1 1 = 0) := by
  have h := eta_formula 2 1 1 (by norm_num) (by norm_num) (by norm_num)
  exact ⟨by exact_mod_cast h.1, h.2.1, fun he => absurd he (by norm_num)⟩

/-- Counterexample to C8 as stated: with 1 of 2 records processed in 1 second
the stored ETA is round(1/60, 1) = 0, not the exact value 1/60. -/
theorem eta_rounding_counterexample :
    compute_eta_minutes 2 1 1 = 0
    ∧ ((2 : ℚ) - 1) * 1 / 1 / 60 = 1/60
    ∧ (0 : ℚ) ≠ 1/60 := by
  refine ⟨?_, by norm_num, by norm_num⟩
  norm_num [compute_eta_minutes, pyRound, pyRoundInt, Int.fract]

/-- Claim C9: a record that already carries a truthy transcript and a true
has-transcript flag is reused unchanged with method "existing" and the
transcribed flag set, and no subtitle download, audio download or
speech-to-text call is made, whatever the external services would return. -/
theorem existing_transcript_reused (video : VideoRecord) (it iy : Bool)
    (env : TranscriptEnv) (s : String)
    (hs : video.transcript = some s) (hne : s ≠ "")
    (hflag : video.has_transcript = true) :
    process_single_video_transcript_step video it iy env
      = { transcript := some s, transcript_method := some "existing",
          transcribed := true, update_transcript := none,
          update_has_transcript := false, update_upload_date := none,
          subtitleDownloads := 0, audioDownloads := 0, whisperCalls := 0 } := by
  unfold process_single_video_transcript_step
  rw [if_pos]
  · rw [hs]
  · rw [hs, hflag]
    exact ⟨by simp [pyTruthyStr, hne], rfl⟩

/-- A record that already carries a transcript of length 200. -/
def exampleTranscribedVideo : VideoRecord :=
  { transcript := some (String.mk (List.replicate 200 'a')),
    has_transcript := true, youtube_id := some "abc123", upload_date := none }

/-- External services that would all succeed, to show they are not called. -/
def exampleEnv : TranscriptEnv :=
  { subtitles := some "subtitle text", subtitlesUploadDate := some "20240101",
    youtubeAudioPath := some "/tmp/a.m4a", tiktokAudioPath := some "/tmp/b.m4a",
    tiktokUploadDate := some "20240102", whisperText := some "whisper text",
    whisperTime := 12 }

/-- Witness for C9: the stored transcript is returned unchanged and no
external call is made even though every external service would succeed. -/
theorem existing_transcript_reused_witness :
    process_single_video_transcript_step exampleTranscribedVideo true true exampleEnv
      = { transcript := some (String.mk (List.replicate 200 'a')),
          transcript_method := some "existing", transcribed := true,
          update_transcript := none, update_has_transcript := false,
          update_upload_date := none, subtitleDownloads := 0, audioDownloads := 0,
          whisperCalls := 0 } :=
  existing_transcript_reused exampleTranscribedVideo true true exampleEnv
    (String.mk (List.replicate 200 'a')) rfl (by decide) rfl

/-- Claim C5 (amended): when the language-generation call completes but returns
a non-success status or output with no parsable JSON, and present signals
exist (all with truthy areas), the classifier returns the combined signal
decision with its confidence multiplied by 0.8, needs_review true and method
"tags_fallback"; in particular a single tag signal of area 3 and confidence
0.6 yields {area_id: 3, confidence: 0.48, needs_review: true,
method: "tags_fallback"}.  (A network exception instead returns the "error"
result, see the counterexample.) -/
theorem llm_unparsable_tags_fallback
    (transcript description : Option String) (areas : List ℤ) (topics : List (ℤ × ℤ))
    (sigs : List (String × ℤ × ℚ)) (status : ℤ) (json : Option LLMJson)
    (hT : pyTruthyStr transcript = true)
    (hne : sigs ≠ []) (hnz : ∀ s ∈ sigs, s.2.1 ≠ 0)
    (hfail : status ≠ 200 ∨ json = none) :
    classify_with_new_taxonomy_core transcript description (stdSignals sigs) areas
        topics (LLMOutcome.resp status json)
      = { area_id := (combine_classification_signals (stdSignals sigs) none).area_id,
          topic_ids := [],
          confidence :=
            (combine_classification_signals (stdSignals sigs) none).confidence * 0.8,
          needs_review := true, classification_method := "tags_fallback" }
    ∧ classify_with_new_taxonomy_core (some "transcript text") none
        [("tags", SigVal.std (some 3) 0.6)] [1, 2, 3] [] (LLMOutcome.resp 200 none)
      = { area_id := some 3, topic_ids := [], confidence := 0.48, needs_review := true,
          classification_method := "tags_fallback" } := by
  constructor
  · obtain ⟨A, hA, hA0, hmaxall, heq⟩ := combine_std_main sigs hne hnz
    have htruthy : areaTruthy
        (combine_classification_signals (stdSignals sigs) none).area_id = true := by
      rw [heq]
      simp [areaTruthy, hA0]
    have hscrut : (if status = 200 then json else none) = none := by
      rcases hfail with h | h
      · rw [if_neg h]
      · rw [h]
        split <;> rfl
    have hsigne : (stdSignals sigs).isEmpty = false := stdSignals_isEmpty_false hne
    simp only [classify_with_new_taxonomy_core, hT, not_true, false_and, if_false,
      classify_with_new_taxonomy_llm, hscrut, hsigne, Bool.false_eq_true,
      not_false_iff, true_and, htruthy, if_true]
  · have hcomb : combine_classification_signals [("tags", SigVal.std (some 3) 0.6)] none
        = { area_id := some 3, confidence := 3/5, needs_review := false } := by
      simp [combine_classification_signals, combineStep, pyDictOr, SIGNAL_WEIGHTS,
        weightOf, dictGetD, dictGet, dictAdd, pyMaxEntry, pyRound, pyRoundInt]
      norm_num
    simp only [classify_with_new_taxonomy_core, classify_with_new_taxonomy_llm,
      pyTruthyStr, hcomb]
    norm_num [areaTruthy]
    decide

/-- Witness for C5: a failed HTTP status with a lone tag signal falls back to
the combined tag decision. -/
theorem llm_unparsable_tags_fallback_witness :
    classify_with_new_taxonomy_core (some "x") none (stdSignals [("tags", 3, 0.6)])
        [1, 2, 3] [] (LLMOutcome.resp 500 none)
      = { area_id :=
            (combine_classification_signals (stdSignals [("tags", 3, 0.6)]) none).area_id,
          topic_ids := [],
          confidence :=
            (combine_classification_signals (stdSignals [("tags", 3, 0.6)]) none).confidence
              * 0.8,
          needs_review := true, classification_method := "tags_fallback" } :=
  (llm_unparsable_tags_fallback (some "x") none [1, 2, 3] [] [("tags", 3, 0.6)] 500 none
    (by decide) (by decide) (by decide) (Or.inl (by decide))).1

/-- Counterexample to C5 as stated: when the language-generation call itself
raises (network error), the code returns the "error" result with a null area
instead of falling back to the tag signal. -/
theorem llm_exception_error_counterexample :
    classify_with_new_taxonomy_core (some "x") none [("tags", SigVal.std (some 3) 0.6)]
        [1, 2, 3] [] LLMOutcome.exn
      = { area_id := none, topic_ids := [], confidence := 0, needs_review := true,
          classification_method := "error" }
    ∧ ("error" : String) ≠ "tags_fallback" := by
  refine ⟨?_, by decide⟩
  simp [classify_with_new_taxonomy_core, classify_with_new_taxonomy_llm, pyTruthyStr]

/-- Claim C4: for every classification produced by the classifier (areas drawn
from the DB have non-zero ids), if the result carries a non-null area then
every returned topic id belongs to that area's topic set — topic ids outside
the chosen area are discarded before the result is returned. -/
theorem classified_topics_belong_to_area
    (transcript description : Option String) (signals : List (String × SigVal))
    (areas : List ℤ) (topics : List (ℤ × ℤ)) (llm : LLMOutcome)
    (hA : ∀ x ∈ areas, x ≠ 0) :
    ∀ a, (classify_with_new_taxonomy_core transcript description signals areas topics
        llm).area_id = some a
      → ∀ t ∈ (classify_with_new_taxonomy_core transcript description signals areas
          topics llm).topic_ids, (t, a) ∈ topics := by
  intro a ha t ht
  unfold classify_with_new_taxonomy_core at ha ht
  split at ht
  case isTrue hcond =>
    simp at ht
  case isFalse hcond =>
    rw [if_neg hcond] at ha
    unfold classify_with_new_taxonomy_llm at ha ht
    cases llm with
    | exn => simp at ha
    | resp status json =>
      dsimp only at ha ht
      cases hsc : (if status = 200 then json else none) with
      | none =>
        rw [hsc] at ha ht
        dsimp only at ha ht
        split at ht <;> simp at ht
      | some j =>
        rw [hsc] at ha ht
        dsimp only at ha ht
        cases hj : j.area_id with
        | none =>
          rw [hj] at ha
          simp at ha
        | some a0 =>
          rw [hj] at ha ht
          dsimp only at ha ht
          by_cases hin : a0 ∈ areas
          · rw [if_pos hin] at ha ht
            simp only [Option.some.injEq] at ha
            subst ha
            have ha0 : a0 ≠ 0 := hA a0 hin
            dsimp only at ht
            rw [if_pos ha0] at ht
            have ht' := List.take_subset 3 _ ht
            have hmem := List.mem_filter.mp ht'
            have hdec := of_decide_eq_true hmem.2
            obtain ⟨⟨t', a'⟩, hmem2, hfst⟩ := List.mem_map.mp hdec
            have hflt := List.mem_filter.mp hmem2
            have ha' : a' = a0 := of_decide_eq_true hflt.2
            simp at hfst
            rw [hfst] at hflt
            rw [ha'] at hflt
            exact hflt.1
          · rw [if_neg hin] at ha
            simp at ha

/-- A parsed LLM response proposing one valid and one invalid topic id. -/
def exampleLLMJson : LLMJson :=
  { area_id := some 1, topic_ids := [10, 99], confidence := "alta" }

/-- Witness for C4: areas {1, 2}, topics {10 in area 1}; the model proposes
topics [10, 99] for area 1, and every returned topic belongs to area 1. -/
theorem classified_topics_belong_to_area_witness :
    (∀ x ∈ ([1, 2] : List ℤ), x ≠ 0)
    ∧ (∀ a, (classify_with_new_taxonomy_core (some "t") none [] [1, 2] [(10, 1)]
          (LLMOutcome.resp 200 (some exampleLLMJson))).area_id = some a
        → ∀ t ∈ (classify_with_new_taxonomy_core (some "t") none [] [1, 2] [(10, 1)]
            (LLMOutcome.resp 200 (some exampleLLMJson))).topic_ids, (t, a) ∈ [(10, 1)]) :=
  ⟨by decide,
    classified_topics_belong_to_area (some "t") none [] [1, 2] [(10, 1)]
      (LLMOutcome.resp 200 (some exampleLLMJson)) (by decide)⟩
